import Mathlib

/-!
Verification of the CRUD filesystem device driver (src/file_io.c, src/client.c).

The development shallowly embeds:
  - the wire codec `create_crud_request` / `extract_crud_response` (file_io.c:64-94),
  - the virtual file layer `crud_format`, `crud_mount`, `crud_open`, `crud_close`,
    `crud_read`, `crud_write`, `crud_seek` (file_io.c:105-621) as state-passing
    functions over an explicit file-table / object-store state, and
  - the byte-level transfer control flow of `crud_client_operation` (client.c:47-140)
    over an abstract trace of transport events.

Machine integers are modelled as `Nat` with explicit `% 2^64` where 64-bit
truncation matters; C byte buffers are `List Nat`; fallible results are the
C return codes as `Int`.
-/

namespace CrudFS

/-- Modelled from the spec: the request-type opcodes (4-bit enumeration
INIT, FORMAT, CREATE, READ, UPDATE, DELETE, CLOSE).  The numeric values live in
the missing header `crud_network.h`; the spec only requires seven distinct
4-bit codes agreed between client and store, so we fix the enumeration order. -/
def CRUD_INIT : Nat := 0

/-- Modelled from the spec: FORMAT opcode (see `CRUD_INIT`). -/
def CRUD_FORMAT : Nat := 1

/-- Modelled from the spec: CREATE opcode (see `CRUD_INIT`). -/
def CRUD_CREATE : Nat := 2

/-- Modelled from the spec: READ opcode (see `CRUD_INIT`). -/
def CRUD_READ : Nat := 3

/-- Modelled from the spec: UPDATE opcode (see `CRUD_INIT`). -/
def CRUD_UPDATE : Nat := 4

/-- Modelled from the spec: DELETE opcode (see `CRUD_INIT`). -/
def CRUD_DELETE : Nat := 5

/-- Modelled from the spec: CLOSE opcode (see `CRUD_INIT`). -/
def CRUD_CLOSE : Nat := 6

/-- Modelled from the spec: the sentinel object id meaning "no backing object
yet" (`crud_file_io.h` is missing from src/).  The store assigns real ids on
CREATE and object id 0 is the reserved priority object, so the sentinel is 0. -/
def CRUD_NO_OBJECT : Nat := 0

/-- Modelled from the spec: the null flag value (missing header). -/
def CRUD_NULL_FLAG : Nat := 0

/-- Modelled from the spec: the reserved 3-bit flag value that designates the
priority object holding the file-table image (missing header); any fixed
nonzero 3-bit value works. -/
def CRUD_PRIORITY_OBJECT : Nat := 1

/-- Modelled from the spec: the maximum object size (missing header).  The wire
length field is 24 bits, so the maximum object size fits in it; the concrete
value only needs to be a fixed constant below `2^24`. -/
def CRUD_MAX_OBJECT_SIZE : Nat := 1048576

/-- Modelled from the spec: the bound on filename length in a table record
(missing header); only its being a fixed positive constant matters. -/
def CRUD_MAX_PATH_LENGTH : Nat := 128

/-- Fields of a decoded 64-bit request/response word, as produced by
`extract_crud_response` (file_io.c:86-94 writes them through five pointers). -/
structure CrudFields where
  object_id : Nat
  request : Nat
  length : Nat
  flag : Nat
  result : Nat
  deriving Repr, DecidableEq

/-- Embedding of `create_crud_request` (file_io.c:64-75): builds the 64-bit
request word by shifting each field to its position and or-ing, exactly as the
C does (`object_id << 32 | req << 28 | len << 4 | flag << 1 | rslt`).
The C parameters are already truncated to their C types by the caller. -/
def create_crud_request (object_id req len flag rslt : Nat) : Nat :=
  ((((object_id <<< 32) ||| (req <<< 28)) ||| (len <<< 4)) ||| (flag <<< 1)) ||| rslt

/-- Embedding of `extract_crud_response` (file_io.c:86-94): each field is
obtained by shifting the 64-bit word left to clear the higher bits (truncating
at 64 bits, as `uint64_t` does) and then right to drop the lower bits. -/
def extract_crud_response (response : Nat) : CrudFields :=
  let r := response % 2 ^ 64
  { object_id := r >>> 32
    request := ((r <<< 32) % 2 ^ 64) >>> 60
    length := ((r <<< 36) % 2 ^ 64) >>> 40
    flag := ((r <<< 60) % 2 ^ 64) >>> 61
    result := ((r <<< 63) % 2 ^ 64) >>> 63 }

/-- One file-table record, mirroring `CrudFileAllocationType` (declared in the
missing header; fields per spec section 6 and their uses in file_io.c).  The C
field `open` is renamed `isOpen` because `open` is a Lean keyword. -/
structure CrudFileAllocationType where
  filename : List Char
  object_id : Nat
  position : Nat
  length : Nat
  isOpen : Bool
  deriving Repr, DecidableEq, Inhabited

/-- The all-zero record that `crud_format` resets every slot to
(file_io.c:142-149). -/
def emptyEntry : CrudFileAllocationType :=
  { filename := [], object_id := CRUD_NO_OBJECT, position := 0, length := 0, isOpen := false }

/-- State of the modelled object store plus exchange bookkeeping.
`objects` maps object ids to contents, `nextOID` is the store's id allocator,
`initCount` counts INIT requests received (also ones answered with a failure),
`exchCount` counts all exchanges,
`failCount` counts exchanges answered with result bit 1, and `failScript` is a
queue of injected failures (one entry popped per exchange; empty means no
injected failure). -/
structure Store where
  objects : List (Nat × List Nat)
  nextOID : Nat
  initCount : Nat
  exchCount : Nat
  failCount : Nat
  failScript : List Bool
  deriving Repr, DecidableEq, Inhabited

def storeLookup : List (Nat × List Nat) → Nat → Option (List Nat)
  | [], _ => none
  | p :: rest, k => if p.1 = k then some p.2 else storeLookup rest k

def storeErase (l : List (Nat × List Nat)) (k : Nat) : List (Nat × List Nat) :=
  l.filter (fun p => p.1 != k)

def storeReplace : List (Nat × List Nat) → Nat → List Nat → List (Nat × List Nat)
  | [], _, _ => []
  | p :: rest, k, c => if p.1 = k then (k, c) :: rest else p :: storeReplace rest k c

/-- Modelled from the spec: one full request/response exchange with the remote
object store, as performed by `crud_client_operation` over a reliable
transport.  The server itself is out of scope of the repository (spec section 1
assumes it implements INIT/FORMAT/CREATE/READ/UPDATE/DELETE/CLOSE correctly and
atomically), so its success semantics follow the spec: CREATE stores the
request's `length` payload bytes under a fresh 32-bit id (or id 0 for the
priority flag) and echoes id and length; READ returns the whole object and its
true length; UPDATE overwrites the object with the payload; DELETE removes it;
the result bit is 1 on failure (unknown object, id space exhausted, corrupt
opcode, or an injected failure from `failScript`). -/
def storeExchange (st : Store) (word : Nat) (payload : List Nat) : Store × Nat × List Nat :=
  let f := extract_crud_response word
  let inj := st.failScript.headD false
  let st1 : Store := { st with
    exchCount := st.exchCount + 1
    failScript := st.failScript.tail
    initCount := if f.request = CRUD_INIT then st.initCount + 1 else st.initCount }
  let failResp := fun (st' : Store) =>
    ({ st' with failCount := st'.failCount + 1 },
     create_crud_request f.object_id f.request 0 f.flag 1, ([] : List Nat))
  if inj then failResp st1
  else if f.request = CRUD_INIT then
    (st1, create_crud_request 0 CRUD_INIT 0 0 0, [])
  else if f.request = CRUD_FORMAT then
    ({ st1 with objects := [], nextOID := 1 }, create_crud_request 0 CRUD_FORMAT 0 0 0, [])
  else if f.request = CRUD_CREATE then
    let oid := if f.flag = CRUD_PRIORITY_OBJECT then 0 else st1.nextOID
    if oid < 2 ^ 32 ∧ storeLookup st1.objects oid = none then
      ({ st1 with
          objects := (oid, payload.take f.length) :: st1.objects,
          nextOID := if f.flag = CRUD_PRIORITY_OBJECT then st1.nextOID else st1.nextOID + 1 },
       create_crud_request oid CRUD_CREATE f.length f.flag 0, [])
    else failResp st1
  else if f.request = CRUD_READ then
    match storeLookup st1.objects f.object_id with
    | some c => (st1, create_crud_request f.object_id CRUD_READ c.length f.flag 0, c)
    | none => failResp st1
  else if f.request = CRUD_UPDATE then
    match storeLookup st1.objects f.object_id with
    | some _ =>
      ({ st1 with objects := storeReplace st1.objects f.object_id (payload.take f.length) },
       create_crud_request f.object_id CRUD_UPDATE f.length f.flag 0, [])
    | none => failResp st1
  else if f.request = CRUD_DELETE then
    match storeLookup st1.objects f.object_id with
    | some _ =>
      ({ st1 with objects := storeErase st1.objects f.object_id },
       create_crud_request f.object_id CRUD_DELETE 0 f.flag 0, [])
    | none => failResp st1
  else if f.request = CRUD_CLOSE then
    (st1, create_crud_request 0 CRUD_CLOSE 0 0 0, [])
  else failResp st1

/-- Driver-visible state: the file table `crud_file_table` (file_io.c:37), the
`INITIALIZED` flag (file_io.c:50), and the store reached through the client. -/
structure FSState where
  crud_file_table : List CrudFileAllocationType
  INITIALIZED : Bool
  store : Store
  deriving Repr, DecidableEq, Inhabited

/-- Replace the entry at index `i` (out-of-range indices leave the table
unchanged, matching the C where such an access never happens after the range
checks). -/
def updateEntry : List CrudFileAllocationType → Nat →
    (CrudFileAllocationType → CrudFileAllocationType) → List CrudFileAllocationType
  | [], _, _ => []
  | e :: r, 0, f => f e :: r
  | e :: r, n + 1, f => e :: updateEntry r n f

/-- The INIT preamble that `crud_format` (file_io.c:116-130), `crud_mount`
(189-202) and `crud_open` (286-298) each begin with: if `INITIALIZED` is 0,
send a CRUD_INIT request; on failure report failure (the operation returns -1);
on success set the flag.  Returns the new state and whether to continue. -/
def ensureInit (s : FSState) : FSState × Bool :=
  if s.INITIALIZED then (s, true)
  else
    let r := storeExchange s.store (create_crud_request 0 CRUD_INIT 0 0 0) []
    let f := extract_crud_response r.2.1
    if f.result = 0 then ({ s with store := r.1, INITIALIZED := true }, true)
    else ({ s with store := r.1 }, false)

/-- Overwrite `src.length` bytes of `dest` starting at offset `off`, the model
of `memcpy(&dest[off], src, n)` on an adequately sized buffer. -/
def memcpyAt (dest : List Nat) (off : Nat) (src : List Nat) : List Nat :=
  dest.take off ++ src ++ dest.drop (off + src.length)

/-- The byte-copy loop of `crud_read` (file_io.c:419-424): starting at `pos`,
copy bytes of `tempBuf` one at a time while `pos < len` and fewer than `count`
bytes have been copied, advancing the position.  Returns the copied bytes and
the final position. -/
def readLoop (tempBuf : List Nat) (len pos : Nat) : Nat → List Nat × Nat
  | 0 => ([], pos)
  | n + 1 =>
    if pos < len then
      let r := readLoop tempBuf len (pos + 1) n
      (tempBuf.getD pos 0 :: r.1, r.2)
    else ([], pos)

/-- The filename scan of `crud_open` (file_io.c:301-310): an entry matches when
its filename is non-empty and `strncmp(filename, path, strlen(path)) == 0`,
i.e. `path` is a prefix of the stored filename; every match overwrites
`existingFd`, so the last matching slot wins. -/
def lastMatchIdx : List CrudFileAllocationType → List Char → Option Nat
  | [], _ => none
  | e :: rest, path =>
    match lastMatchIdx rest path with
    | some j => some (j + 1)
    | none => if e.filename ≠ [] ∧ path.isPrefixOf e.filename then some 0 else none

/-- The free-slot scan of `crud_open` (file_io.c:324-341): the first slot that
is not open and has an empty filename. -/
def firstFreeIdx : List CrudFileAllocationType → Option Nat
  | [] => none
  | e :: rest =>
    if e.isOpen = false ∧ e.filename = [] then some 0
    else (firstFreeIdx rest).map (· + 1)

/-- Embedding of `crud_open` (file_io.c:276-345). -/
def crud_open (s : FSState) (path : List Char) : FSState × Int :=
  let p := ensureInit s
  if p.2 = false then (p.1, -1)
  else
    let s1 := p.1
    match lastMatchIdx s1.crud_file_table path with
    | some existingFd =>
      let t := updateEntry s1.crud_file_table existingFd
        (fun e => { e with isOpen := true, position := 0 })
      ({ s1 with crud_file_table := t }, (existingFd : Int))
    | none =>
      match firstFreeIdx s1.crud_file_table with
      | some i =>
        let t := updateEntry s1.crud_file_table i
          (fun e => { e with isOpen := true, filename := path,
                             object_id := CRUD_NO_OBJECT, length := 0, position := 0 })
        ({ s1 with crud_file_table := t }, (i : Int))
      | none => (s1, -1)

/-- Embedding of `crud_close` (file_io.c:355-367). -/
def crud_close (s : FSState) (fd : Int) : FSState × Int :=
  if fd < 0 ∨ fd > (s.crud_file_table.length : Int) - 1 then (s, -1)
  else
    let e := s.crud_file_table.getD fd.toNat default
    if e.isOpen = false then (s, -1)
    else
      let t := updateEntry s.crud_file_table fd.toNat (fun e => { e with isOpen := false })
      ({ s with crud_file_table := t }, 0)

/-- Embedding of `crud_seek` (file_io.c:607-621). -/
def crud_seek (s : FSState) (fd : Int) (loc : Nat) : FSState × Int :=
  if fd < 0 ∨ fd > (s.crud_file_table.length : Int) - 1 then (s, -1)
  else
    let e := s.crud_file_table.getD fd.toNat default
    if e.isOpen = false then (s, -1)
    else if loc > e.length then (s, -1)
    else
      let t := updateEntry s.crud_file_table fd.toNat (fun e => { e with position := loc })
      ({ s with crud_file_table := t }, 0)

/-- Embedding of `crud_read` (file_io.c:380-440).  The caller's buffer is
`some b` (NULL is `none`); the third component of the result is the caller's
buffer after the final `memcpy(buf, tempBuf2, bytesRead)`.  Note the C writes
the READ response's object id and length into the table entry before checking
the result bit (file_io.c:413-416). -/
def crud_read (s : FSState) (fd : Int) (buf : Option (List Nat)) (count : Int) :
    FSState × Int × List Nat :=
  if fd < 0 ∨ fd > (s.crud_file_table.length : Int) - 1 then (s, -1, buf.getD [])
  else
    let e := s.crud_file_table.getD fd.toNat default
    if e.isOpen = false then (s, -1, buf.getD [])
    else
      match buf with
      | none => (s, -1, [])
      | some b =>
        if e.length = 0 then (s, 0, b)
        else if count < 1 then (s, 0, b)
        else
          let r := storeExchange s.store
            (create_crud_request e.object_id CRUD_READ CRUD_MAX_OBJECT_SIZE 0 0) []
          let f := extract_crud_response r.2.1
          let tempBuf := r.2.2
          let t1 := updateEntry s.crud_file_table fd.toNat
            (fun x => { x with object_id := f.object_id, length := f.length })
          let s1 := { s with store := r.1, crud_file_table := t1 }
          if f.result ≠ 0 then (s1, -1, b)
          else
            let e1 := t1.getD fd.toNat default
            let lp := readLoop tempBuf e1.length e1.position count.toNat
            let t2 := updateEntry t1 fd.toNat (fun x => { x with position := lp.2 })
            ({ s1 with crud_file_table := t2 }, (lp.1.length : Int), memcpyAt b 0 lp.1)

/-- Embedding of `crud_write` (file_io.c:455-596).  The three cases of the C
(create a first object; in-place update; delete and re-create larger) are kept,
as is the C's habit of writing each response's object id and length into the
table entry before checking the result bit. -/
def crud_write (s : FSState) (fd : Int) (buf : Option (List Nat)) (count : Int) :
    FSState × Int :=
  if fd < 0 ∨ fd > (s.crud_file_table.length : Int) - 1 then (s, -1)
  else
    let e := s.crud_file_table.getD fd.toNat default
    if e.isOpen = false then (s, -1)
    else
      match buf with
      | none => (s, -1)
      | some b =>
        if count < 1 then (s, 0)
        else
          let tempBuf := b.take count.toNat
          if e.object_id = CRUD_NO_OBJECT then
            let r := storeExchange s.store
              (create_crud_request 0 CRUD_CREATE count.toNat 0 0) tempBuf
            let f := extract_crud_response r.2.1
            let t1 := updateEntry s.crud_file_table fd.toNat
              (fun x => { x with object_id := f.object_id, length := f.length })
            let s1 := { s with store := r.1, crud_file_table := t1 }
            if f.result ≠ 0 then (s1, -1)
            else
              let t2 := updateEntry t1 fd.toNat (fun x => { x with position := count.toNat })
              ({ s1 with crud_file_table := t2 }, count)
          else if e.length ≥ count.toNat + e.position then
            let r1 := storeExchange s.store
              (create_crud_request e.object_id CRUD_READ CRUD_MAX_OBJECT_SIZE 0 0) []
            let f1 := extract_crud_response r1.2.1
            let tempBuf2 := r1.2.2
            let tA := updateEntry s.crud_file_table fd.toNat
              (fun x => { x with object_id := f1.object_id, length := f1.length })
            let sA := { s with store := r1.1, crud_file_table := tA }
            if f1.result ≠ 0 then (sA, -1)
            else
              let eA := tA.getD fd.toNat default
              let tempBuf2' := memcpyAt tempBuf2 eA.position tempBuf
              let r2 := storeExchange sA.store
                (create_crud_request eA.object_id CRUD_UPDATE eA.length 0 0) tempBuf2'
              let f2 := extract_crud_response r2.2.1
              let tB := updateEntry tA fd.toNat
                (fun x => { x with object_id := f2.object_id, length := f2.length })
              let sB := { sA with store := r2.1, crud_file_table := tB }
              if f2.result ≠ 0 then (sB, -1)
              else
                let tC := updateEntry tB fd.toNat
                  (fun x => { x with position := x.position + count.toNat })
                ({ sB with crud_file_table := tC }, count)
          else
            let newLength := count.toNat + e.position
            let r1 := storeExchange s.store
              (create_crud_request e.object_id CRUD_READ newLength 0 0) []
            let f1 := extract_crud_response r1.2.1
            let tempBuf2 := memcpyAt (List.replicate newLength 0) 0 r1.2.2
            let tA := updateEntry s.crud_file_table fd.toNat
              (fun x => { x with object_id := f1.object_id, length := f1.length })
            let sA := { s with store := r1.1, crud_file_table := tA }
            if f1.result ≠ 0 then (sA, -1)
            else
              let eA := tA.getD fd.toNat default
              let tempBuf2' := memcpyAt tempBuf2 eA.position tempBuf
              let r2 := storeExchange sA.store
                (create_crud_request eA.object_id CRUD_DELETE 0 0 0) []
              let f2 := extract_crud_response r2.2.1
              let tB := updateEntry tA fd.toNat
                (fun x => { x with object_id := f2.object_id, length := f2.length })
              let sB := { sA with store := r2.1, crud_file_table := tB }
              if f2.result ≠ 0 then (sB, -1)
              else
                let r3 := storeExchange sB.store
                  (create_crud_request 0 CRUD_CREATE newLength 0 0) tempBuf2'
                let f3 := extract_crud_response r3.2.1
                let tC := updateEntry tB fd.toNat
                  (fun x => { x with object_id := f3.object_id, length := f3.length })
                let sC := { sB with store := r3.1, crud_file_table := tC }
                if f3.result ≠ 0 then (sC, -1)
                else
                  let tD := updateEntry tC fd.toNat
                    (fun x => { x with position := x.position + count.toNat })
                  ({ sC with crud_file_table := tD }, count)

/-- Modelled from the spec: the byte image of one table record (filename bytes
padded to the path bound, then object id, position, length, open flag).  The
record layout lives in the missing header; spec section 6 only fixes that the
image is a fixed-size contiguous per-file record. -/
def entryImage (e : CrudFileAllocationType) : List Nat :=
  (e.filename.map Char.toNat ++ List.replicate CRUD_MAX_PATH_LENGTH 0).take CRUD_MAX_PATH_LENGTH
    ++ [e.object_id, e.position, e.length, if e.isOpen then 1 else 0]

/-- Size of one serialized record (the model's `sizeof(CrudFileAllocationType)`). -/
def CRUD_RECORD_SIZE : Nat := CRUD_MAX_PATH_LENGTH + 4

/-- Modelled from the spec: the raw byte image of the whole table, the
`memcpy(buf, crud_file_table, prioritySize)` of file_io.c:152. -/
def serializeTable (t : List CrudFileAllocationType) : List Nat :=
  (t.map entryImage).flatten

/-- Modelled from the spec: decode one serialized record. -/
def decodeEntry (bs : List Nat) : CrudFileAllocationType :=
  { filename := ((bs.take CRUD_MAX_PATH_LENGTH).takeWhile (fun b => b ≠ 0)).map Char.ofNat
    object_id := bs.getD CRUD_MAX_PATH_LENGTH 0
    position := bs.getD (CRUD_MAX_PATH_LENGTH + 1) 0
    length := bs.getD (CRUD_MAX_PATH_LENGTH + 2) 0
    isOpen := bs.getD (CRUD_MAX_PATH_LENGTH + 3) 0 ≠ 0 }

/-- Modelled from the spec: decode a table image back into `n` records, the
`memcpy(crud_file_table, buf, tableSize)` of file_io.c:213. -/
def deserializeTable : Nat → List Nat → List CrudFileAllocationType
  | 0, _ => []
  | n + 1, bs => decodeEntry (bs.take CRUD_RECORD_SIZE) ::
      deserializeTable n (bs.drop CRUD_RECORD_SIZE)

/-- Embedding of `crud_format` (file_io.c:105-168): INIT if needed, FORMAT,
reset every table slot, CREATE the priority object holding the table image. -/
def crud_format (s : FSState) : FSState × Int :=
  let p := ensureInit s
  if p.2 = false then (p.1, -1)
  else
    let s1 := p.1
    let r := storeExchange s1.store (create_crud_request 0 CRUD_FORMAT 0 CRUD_NULL_FLAG 0) []
    let f := extract_crud_response r.2.1
    let s2 := { s1 with store := r.1 }
    if f.result ≠ 0 then (s2, -1)
    else
      let prioritySize := CRUD_RECORD_SIZE * s2.crud_file_table.length
      let t := List.replicate s2.crud_file_table.length emptyEntry
      let buf := serializeTable t
      let r2 := storeExchange s2.store
        (create_crud_request 0 CRUD_CREATE prioritySize CRUD_PRIORITY_OBJECT 0) buf
      let f2 := extract_crud_response r2.2.1
      let s3 := { s2 with crud_file_table := t, store := r2.1 }
      if f2.result ≠ 0 then (s3, -1) else (s3, 0)

/-- Embedding of `crud_mount` (file_io.c:179-221): INIT if needed, READ the
priority object, overwrite the in-memory table with its contents. -/
def crud_mount (s : FSState) : FSState × Int :=
  let p := ensureInit s
  if p.2 = false then (p.1, -1)
  else
    let s1 := p.1
    let tableSize := CRUD_RECORD_SIZE * s1.crud_file_table.length
    let r := storeExchange s1.store
      (create_crud_request 0 CRUD_READ tableSize CRUD_PRIORITY_OBJECT 0) []
    let f := extract_crud_response r.2.1
    let s2 := { s1 with store := r.1 }
    if f.result ≠ 0 then (s2, -1)
    else ({ s2 with crud_file_table := deserializeTable s2.crud_file_table.length r.2.2 }, 0)

/-- The store as the process first reaches it: no objects, ids from 1, no
exchanges yet, no injected failures. -/
def initStore : Store :=
  { objects := [], nextOID := 1, initCount := 0, exchCount := 0, failCount := 0,
    failScript := [] }

/-- Driver state at process start: `crud_file_table` is a zeroed static array of
`n = CRUD_MAX_TOTAL_FILES` records (file_io.c:37), `INITIALIZED = 0`. -/
def initState (n : Nat) : FSState :=
  { crud_file_table := List.replicate n emptyEntry, INITIALIZED := false, store := initStore }

/-- One call of the five file-level operations, with its arguments. -/
inductive FileOp where
  | opn : List Char → FileOp
  | cls : Int → FileOp
  | rd : Int → Option (List Nat) → Int → FileOp
  | wr : Int → Option (List Nat) → Int → FileOp
  | sk : Int → Nat → FileOp

/-- State after one file-level call. -/
def runOp (s : FSState) : FileOp → FSState
  | .opn p => (crud_open s p).1
  | .cls fd => (crud_close s fd).1
  | .rd fd b c => (crud_read s fd b c).1
  | .wr fd b c => (crud_write s fd b c).1
  | .sk fd l => (crud_seek s fd l).1

/-- State after a sequence of file-level calls. -/
def runOps (s : FSState) (l : List FileOp) : FSState :=
  l.foldl runOp s

/-- The C-contract side conditions of one call: a write must supply at least
`count` readable buffer bytes (the C reads `buf[0..count)`), and the write must
fit the 24-bit wire length field (spec section 4.1 makes lengths beyond the
field width caller error). -/
def writeOpOK (s : FSState) : FileOp → Bool
  | .wr fd (some b) c =>
    decide (c.toNat + (s.crud_file_table.getD fd.toNat default).position < 2 ^ 24 ∧
      c.toNat ≤ b.length)
  | _ => true

/-- Run checker for a call sequence: every call obeys `writeOpOK` in the state
it executes in, and no exchange of the run is answered with a failure. -/
def runSafe : FSState → List FileOp → Bool
  | _, [] => true
  | s, o :: rest =>
    writeOpOK s o && decide ((runOp s o).store.failCount = s.store.failCount) &&
      runSafe (runOp s o) rest

/-- Success conditions of one `crud_read` call in state `s`: whenever the call
reaches the READ exchange, the entry's backing object must be present in the
store (the modelled store answers READ with a failure exactly when the object
is missing or a failure is injected). -/
def rdOK (s : FSState) (fd : Int) (b : Option (List Nat)) (c : Int) : Bool :=
  match b with
  | none => true
  | some _ =>
    if fd < 0 ∨ fd > (s.crud_file_table.length : Int) - 1 then true
    else
      let e := s.crud_file_table.getD fd.toNat default
      if e.isOpen = false then true
      else if e.length = 0 then true
      else if c < 1 then true
      else
        match storeLookup s.store.objects e.object_id with
        | some _ => true
        | none => false

/-- Contract and success conditions of one `crud_write` call in state `s`:
when the call reaches an exchange, the caller supplies at least `count`
readable buffer bytes (the C reads `buf[0..count)`), the write fits the 24-bit
wire length field (spec section 4.1 makes out-of-width lengths caller error),
the object to be read back and rewritten is present, and a fresh id is
available for the CREATE. -/
def wrOK (s : FSState) (fd : Int) (b : Option (List Nat)) (c : Int) : Bool :=
  match b with
  | none => true
  | some bb =>
    if fd < 0 ∨ fd > (s.crud_file_table.length : Int) - 1 then true
    else
      let e := s.crud_file_table.getD fd.toNat default
      if e.isOpen = false then true
      else if c < 1 then true
      else
        decide (c.toNat + e.position < 2 ^ 24) && decide (c.toNat ≤ bb.length) &&
        (if e.object_id = CRUD_NO_OBJECT then
          decide (s.store.nextOID < 2 ^ 32) &&
            decide (storeLookup s.store.objects s.store.nextOID = none)
        else
          match storeLookup s.store.objects e.object_id with
          | none => false
          | some _ =>
            if e.length ≥ c.toNat + e.position then true
            else
              decide (s.store.nextOID < 2 ^ 32) &&
                decide (storeLookup (storeErase s.store.objects e.object_id)
                  s.store.nextOID = none))

/-- Per-call success checker: reads and writes must meet their store-side
success conditions and the write contract; open, close and seek always may
run (their INIT exchange cannot fail with an empty fail script, and their
validation failures mutate nothing). -/
def opOK (s : FSState) : FileOp → Bool
  | .rd fd b c => rdOK s fd b c
  | .wr fd b c => wrOK s fd b c
  | _ => true

/-- Every call of the sequence meets `opOK` in the state it executes in. -/
def opsOK : FSState → List FileOp → Bool
  | _, [] => true
  | s, o :: rest => opOK s o && opsOK (runOp s o) rest

/-- Well-formedness of one table entry against the store: the cursor is within
the length, the object id fits the 32-bit wire field and is below the store's
id allocator, and if the backing object is present its content length is the
entry's length. -/
def entryWF (st : Store) (e : CrudFileAllocationType) : Prop :=
  e.position ≤ e.length ∧ e.object_id < 2 ^ 32 ∧ e.object_id < st.nextOID ∧
  ∀ c, storeLookup st.objects e.object_id = some c → c.length = e.length

/-- Well-formedness of the store: the id allocator is positive, no object sits
at id 0 (CRUD_NO_OBJECT), every content fits the 24-bit wire length field, and
no failure is scripted. -/
def storeWF (st : Store) : Prop :=
  1 ≤ st.nextOID ∧ storeLookup st.objects CRUD_NO_OBJECT = none ∧
  (∀ k c, storeLookup st.objects k = some c → c.length < 2 ^ 24) ∧
  st.failScript = []

/-- Every table entry is well-formed against the store. -/
def tableWF (st : Store) (t : List CrudFileAllocationType) : Prop :=
  ∀ i, i < t.length → entryWF st (t.getD i default)

/-- The driver-state invariant carried across calls. -/
def stateWF (s : FSState) : Prop :=
  tableWF s.store s.crud_file_table ∧ storeWF s.store

/-- One call of the operations that begin with the INIT preamble. -/
inductive MOp where
  | fmt : MOp
  | mnt : MOp
  | opn : List Char → MOp

/-- State after one such call. -/
def runMOp (s : FSState) : MOp → FSState
  | .fmt => (crud_format s).1
  | .mnt => (crud_mount s).1
  | .opn p => (crud_open s p).1

/-- State after a sequence of format/mount/open calls. -/
def runMOps (s : FSState) (l : List MOp) : FSState :=
  l.foldl runMOp s

/-- Outcome of one wire-level exchange of client.c: a response word, an error
return (-1), or blocking forever inside a transfer loop. -/
inductive WireResult where
  | ok : Nat → WireResult
  | err : WireResult
  | blocked : WireResult
  deriving Repr, DecidableEq

/-- The payload transfer loops of client.c (lines 96-99 and 119-122):
`while (bytes != length) bytes += write(...)`.  `events` lists the return value
of each successive `read`/`write` call; the loop consumes one per iteration and
exits only when the accumulated count equals `len` exactly.  Returns the
unconsumed events, or `none` when the events run out with the loop still
spinning (the C blocks).  There is no error exit: a short or failed (-1)
transfer just feeds the accumulator. -/
def transferLoop (len acc : Int) (events : List Int) : Option (List Int) :=
  if acc = len then some events
  else
    match events with
    | [] => none
    | r :: rest => transferLoop len (acc + r) rest

/-- Embedding of the transfer control flow of `crud_client_operation`
(client.c:47-140) over an abstract transport.  `connected`/`connectOk` model
the CONNECTED flag and the connection preamble's success; `op` is the request
word; `respWord` is the 64-bit response word the server sends; `events` are the
byte counts returned by the successive `write`/`read` syscalls.  The request
word send (line 83) and response word receive (line 103) return -1 unless
exactly 8 bytes transfer in one call; the CREATE/UPDATE outbound payload and
READ inbound payload run the unchecked loops; a CLOSE response tears down the
connection (lines 127-131).  The request type and length are extracted from the
word with the same shifts as `extract_crud_response` (client.c:78-79,110-111). -/
def crud_client_operation (connected connectOk : Bool) (op respWord : Nat)
    (events : List Int) : WireResult × Bool :=
  if connected = false ∧ connectOk = false then (.err, false)
  else
    match events with
    | [] => (.blocked, true)
    | w0 :: rest =>
      if w0 ≠ 8 then (.err, true)
      else
        let f := extract_crud_response op
        let afterSend := if f.request = CRUD_CREATE ∨ f.request = CRUD_UPDATE then
            transferLoop (f.length : Int) 0 rest
          else some rest
        match afterSend with
        | none => (.blocked, true)
        | some rest2 =>
          match rest2 with
          | [] => (.blocked, true)
          | r0 :: rest3 =>
            if r0 ≠ 8 then (.err, true)
            else
              let g := extract_crud_response respWord
              let afterRecv := if g.request = CRUD_READ then
                  transferLoop (g.length : Int) 0 rest3
                else some rest3
              match afterRecv with
              | none => (.blocked, true)
              | some _ =>
                if g.request = CRUD_CLOSE then (.ok respWord, false)
                else (.ok respWord, true)

-- ============================================================
-- Theorems
-- ============================================================

theorem lor_eq_add_of_dvd_of_lt {a b k : Nat} (h1 : 2 ^ k ∣ a) (h2 : b < 2 ^ k) :
    a ||| b = a + b := by
  obtain ⟨m, rfl⟩ := h1
  induction k generalizing b with
  | zero =>
    interval_cases b
    simp
  | succ k ih =>
    have hb2 : b / 2 < 2 ^ k := by omega
    have hbit : Nat.bit (b % 2 = 1) (b / 2) = b := by
      unfold Nat.bit
      rcases Nat.mod_two_eq_zero_or_one b with h | h <;> simp [h] <;> omega
    have ha : 2 ^ (k + 1) * m = Nat.bit false (2 ^ k * m) := by
      unfold Nat.bit
      simp
      ring
    calc 2 ^ (k + 1) * m ||| b
        = Nat.bit false (2 ^ k * m) ||| Nat.bit (b % 2 = 1) (b / 2) := by rw [ha, hbit]
      _ = Nat.bit (false || (b % 2 = 1)) ((2 ^ k * m) ||| (b / 2)) := Nat.lor_bit _ _ _ _
      _ = Nat.bit (b % 2 = 1) (2 ^ k * m + b / 2) := by rw [Bool.false_or, ih hb2]
      _ = 2 ^ (k + 1) * m + b := by
          unfold Nat.bit
          rcases Nat.mod_two_eq_zero_or_one b with h | h <;> simp [h] <;> ring_nf <;> omega

/-- On in-range field values, packing is plain positional arithmetic. -/
theorem create_crud_request_eq_add {oid req len flag rslt : Nat}
    (hoid : oid < 2 ^ 32) (hreq : req < 2 ^ 4) (hlen : len < 2 ^ 24)
    (hflag : flag < 2 ^ 3) (hrslt : rslt < 2) :
    create_crud_request oid req len flag rslt =
      oid * 2 ^ 32 + req * 2 ^ 28 + len * 2 ^ 4 + flag * 2 + rslt := by
  unfold create_crud_request
  rw [Nat.shiftLeft_eq, Nat.shiftLeft_eq, Nat.shiftLeft_eq, Nat.shiftLeft_eq]
  have h1 : oid * 2 ^ 32 ||| req * 2 ^ 28 = oid * 2 ^ 32 + req * 2 ^ 28 :=
    lor_eq_add_of_dvd_of_lt (k := 32) ⟨oid, by ring⟩ (by omega)
  rw [h1]
  have h2 : oid * 2 ^ 32 + req * 2 ^ 28 ||| len * 2 ^ 4 =
      oid * 2 ^ 32 + req * 2 ^ 28 + len * 2 ^ 4 :=
    lor_eq_add_of_dvd_of_lt (k := 28) ⟨oid * 2 ^ 4 + req, by ring⟩ (by omega)
  rw [h2]
  have h3 : oid * 2 ^ 32 + req * 2 ^ 28 + len * 2 ^ 4 ||| flag * 2 ^ 1 =
      oid * 2 ^ 32 + req * 2 ^ 28 + len * 2 ^ 4 + flag * 2 ^ 1 :=
    lor_eq_add_of_dvd_of_lt (k := 4)
      ⟨oid * 2 ^ 28 + req * 2 ^ 24 + len, by ring⟩ (by omega)
  rw [h3]
  have h4 : oid * 2 ^ 32 + req * 2 ^ 28 + len * 2 ^ 4 + flag * 2 ^ 1 ||| rslt =
      oid * 2 ^ 32 + req * 2 ^ 28 + len * 2 ^ 4 + flag * 2 ^ 1 + rslt :=
    lor_eq_add_of_dvd_of_lt (k := 1)
      ⟨oid * 2 ^ 31 + req * 2 ^ 27 + len * 2 ^ 3 + flag, by ring⟩ (by omega)
  rw [h4]
  ring

theorem create_crud_request_lt {oid req len flag rslt : Nat}
    (hoid : oid < 2 ^ 32) (hreq : req < 2 ^ 4) (hlen : len < 2 ^ 24)
    (hflag : flag < 2 ^ 3) (hrslt : rslt < 2) :
    create_crud_request oid req len flag rslt < 2 ^ 64 := by
  rw [create_crud_request_eq_add hoid hreq hlen hflag hrslt]
  omega

/-- Unpacking inverts packing on in-range field values. -/
theorem extract_create_crud (oid req len flag rslt : Nat)
    (hoid : oid < 2 ^ 32) (hreq : req < 2 ^ 4) (hlen : len < 2 ^ 24)
    (hflag : flag < 2 ^ 3) (hrslt : rslt < 2) :
    extract_crud_response (create_crud_request oid req len flag rslt) =
      ⟨oid, req, len, flag, rslt⟩ := by
  rw [create_crud_request_eq_add hoid hreq hlen hflag hrslt]
  simp only [extract_crud_response, Nat.shiftLeft_eq, Nat.shiftRight_eq_div_pow,
    CrudFields.mk.injEq]
  refine ⟨?_, ?_, ?_, ?_, ?_⟩ <;> omega

theorem updateEntry_length (t : List CrudFileAllocationType) (i : Nat)
    (f : CrudFileAllocationType → CrudFileAllocationType) :
    (updateEntry t i f).length = t.length := by
  induction t generalizing i with
  | nil => rfl
  | cons e r ih =>
    cases i with
    | zero => rfl
    | succ n => simp [updateEntry, ih]

theorem getD_updateEntry_self (t : List CrudFileAllocationType) (i : Nat)
    (f : CrudFileAllocationType → CrudFileAllocationType) (h : i < t.length) :
    (updateEntry t i f).getD i default = f (t.getD i default) := by
  induction t generalizing i with
  | nil => simp at h
  | cons e r ih =>
    cases i with
    | zero => rfl
    | succ n =>
      simp only [updateEntry, List.getD_cons_succ]
      exact ih n (by simpa using h)

theorem getD_updateEntry_ne (t : List CrudFileAllocationType) (i j : Nat)
    (f : CrudFileAllocationType → CrudFileAllocationType) (h : j ≠ i) :
    (updateEntry t i f).getD j default = t.getD j default := by
  induction t generalizing i j with
  | nil => rfl
  | cons e r ih =>
    cases i with
    | zero =>
      cases j with
      | zero => exact absurd rfl h
      | succ m => rfl
    | succ n =>
      cases j with
      | zero => rfl
      | succ m =>
        simp only [updateEntry, List.getD_cons_succ]
        exact ih n m (by omega)

theorem readLoop_spec (c : List Nat) (n : Nat) : ∀ pos : Nat,
    readLoop c c.length pos n = ((c.drop pos).take n, pos + min n (c.length - pos)) := by
  induction n with
  | zero => intro pos; simp [readLoop]
  | succ n ih =>
    intro pos
    by_cases hp : pos < c.length
    · have hdrop : c.drop pos = c.getD pos 0 :: c.drop (pos + 1) := by
        rw [List.getD_eq_getElem c 0 hp]
        exact List.drop_eq_getElem_cons hp
      simp only [readLoop, if_pos hp, ih (pos + 1), hdrop, List.take_succ_cons]
      refine Prod.ext rfl ?_
      simp only []
      omega
    · have : c.drop pos = [] := List.drop_eq_nil_of_le (by omega)
      simp only [readLoop, if_neg hp, this, List.take_nil]
      refine Prod.ext rfl ?_
      simp only []
      omega

theorem memcpyAt_length (dest src : List Nat) (off : Nat)
    (h : off + src.length ≤ dest.length) :
    (memcpyAt dest off src).length = dest.length := by
  simp only [memcpyAt, List.length_append, List.length_take, List.length_drop]
  omega

theorem memcpyAt_front (b src : List Nat) :
    memcpyAt b 0 src = src ++ b.drop src.length := by
  simp [memcpyAt]

theorem memcpyAt_all (b src : List Nat) (h : b.length = src.length) :
    memcpyAt b 0 src = src := by
  rw [memcpyAt_front, List.drop_eq_nil_of_le (by omega), List.append_nil]

theorem memcpyAt_at_end (dest src : List Nat) (off : Nat) (h : dest.length = off) :
    memcpyAt dest off src = dest ++ src := by
  have h1 : List.take off dest = dest := List.take_of_length_le (by omega)
  have h2 : List.drop (off + src.length) dest = [] := List.drop_eq_nil_of_le (by omega)
  simp [memcpyAt, h1, h2]

/-- C6: packing five in-range fields with `create_crud_request` and unpacking
the word with `extract_crud_response` returns exactly the original field
values (id in bits 63-32, opcode 31-28, length 27-4, flag 3-1, result 0). -/
theorem C6_wire_codec_roundtrip (object_id request len flag result : Nat)
    (h1 : object_id < 2 ^ 32) (h2 : request < 2 ^ 4) (h3 : len < 2 ^ 24)
    (h4 : flag < 2 ^ 3) (h5 : result < 2) :
    extract_crud_response (create_crud_request object_id request len flag result) =
      ⟨object_id, request, len, flag, result⟩ :=
  extract_create_crud object_id request len flag result h1 h2 h3 h4 h5

/-- Witness for C6 at one concrete in-range field tuple. -/
theorem C6_wire_codec_roundtrip_witness :
    (3735928559 < 2 ^ 32 ∧ 4 < 2 ^ 4 ∧ 16777215 < 2 ^ 24 ∧ 5 < 2 ^ 3 ∧ 1 < 2) ∧
    extract_crud_response (create_crud_request 3735928559 4 16777215 5 1) =
      ⟨3735928559, 4, 16777215, 5, 1⟩ :=
  ⟨by decide, C6_wire_codec_roundtrip 3735928559 4 16777215 5 1 (by decide) (by decide)
    (by decide) (by decide) (by decide)⟩

theorem transferLoop_exits_exact (len : Int) (evs : List Int) : ∀ (acc : Int)
    (evs' : List Int), transferLoop len acc evs = some evs' →
    ∃ pre, evs = pre ++ evs' ∧ acc + pre.sum = len := by
  induction evs with
  | nil =>
    intro acc evs' h
    by_cases hacc : acc = len
    · refine ⟨[], ?_, by simpa using hacc⟩
      simp only [transferLoop, if_pos hacc] at h
      simpa using (Option.some.injEq _ _ ▸ h).symm
    · simp [transferLoop, hacc] at h
  | cons r rest ih =>
    intro acc evs' h
    by_cases hacc : acc = len
    · simp only [transferLoop, if_pos hacc] at h
      exact ⟨[], by simpa using Option.some.inj h, by simpa using hacc⟩
    · simp only [transferLoop, if_neg hacc] at h
      obtain ⟨pre, hpre, hsum⟩ := ih (acc + r) evs' h
      exact ⟨r :: pre, by simp [hpre], by simp [List.sum_cons]; omega⟩

theorem wire_reqword_short_err (k : Bool) (op w : Nat) (e : Int) (rest : List Int)
    (h : e ≠ 8) : (crud_client_operation true k op w (e :: rest)).1 = WireResult.err := by
  simp [crud_client_operation, h]

theorem wire_respword_short_err (k : Bool) (op w : Nat) (pevs rest : List Int) (r0 : Int)
    (hreq : (extract_crud_response op).request = CRUD_CREATE ∨
      (extract_crud_response op).request = CRUD_UPDATE)
    (hloop : transferLoop ((extract_crud_response op).length : Int) 0 pevs = some (r0 :: rest))
    (h : r0 ≠ 8) :
    (crud_client_operation true k op w (8 :: pevs)).1 = WireResult.err := by
  have hconn : ¬(true = false ∧ k = false) := by simp
  simp only [crud_client_operation, if_neg hconn]
  simp only [if_pos hreq, hloop]
  simp [h]

theorem wire_payload_never_err (k : Bool) (op w : Nat) (pevs rest : List Int)
    (hreq : (extract_crud_response op).request = CRUD_CREATE ∨
      (extract_crud_response op).request = CRUD_UPDATE)
    (hloop : transferLoop ((extract_crud_response op).length : Int) 0 pevs = some (8 :: rest))
    (hresp : (extract_crud_response w).request ≠ CRUD_READ) :
    (crud_client_operation true k op w (8 :: pevs)).1 = WireResult.ok w := by
  have hconn : ¬(true = false ∧ k = false) := by simp
  simp only [crud_client_operation, if_neg hconn]
  simp only [if_pos hreq, hloop, if_neg hresp]
  by_cases hc : (extract_crud_response w).request = CRUD_CLOSE <;> simp [hc]

theorem wire_payload_blocked (k : Bool) (op w : Nat) (pevs : List Int)
    (hreq : (extract_crud_response op).request = CRUD_CREATE ∨
      (extract_crud_response op).request = CRUD_UPDATE)
    (hloop : transferLoop ((extract_crud_response op).length : Int) 0 pevs = none) :
    (crud_client_operation true k op w (8 :: pevs)).1 = WireResult.blocked := by
  have hconn : ¬(true = false ∧ k = false) := by simp
  simp only [crud_client_operation, if_neg hconn]
  simp [hreq, hloop]

/-- C8 counterexample: in `crud_client_operation`, with a CREATE request word
promising 2 payload bytes, a short payload write (1 byte of the 2 requested)
and an outright failed payload write (-1) both let the exchange run to
completion and return the ok response word — the exchange is not aborted with
an error result, contradicting the claim that any short or failed send of the
outbound payload aborts the whole exchange with an error. -/
theorem C8_counterexample :
    (crud_client_operation true true (create_crud_request 1 CRUD_CREATE 2 0 0)
        (create_crud_request 1 CRUD_CREATE 2 0 0) [8, 1, 1, 8]).1 =
      WireResult.ok (create_crud_request 1 CRUD_CREATE 2 0 0) ∧
    (crud_client_operation true true (create_crud_request 1 CRUD_CREATE 2 0 0)
        (create_crud_request 1 CRUD_CREATE 2 0 0) [8, -1, 3, 8]).1 =
      WireResult.ok (create_crud_request 1 CRUD_CREATE 2 0 0) := by
  decide

/-- C8 (amended): short or failed transfers of the 8-byte request or response
word abort the exchange with an error return; the CREATE/UPDATE outbound and
READ inbound payload loops instead retry until exactly `length` bytes have
accumulated — they exit only at exact completion (never more or fewer), have no
error outcome at all (a failed -1 transfer merely feeds the accumulator), and
if they never reach `length` the exchange blocks; the logical operation is
never retried. -/
theorem C8_transport_loop_semantics :
    (∀ (k : Bool) (op w : Nat) (e : Int) (rest : List Int), e ≠ 8 →
      (crud_client_operation true k op w (e :: rest)).1 = WireResult.err) ∧
    (∀ (k : Bool) (op w : Nat) (pevs rest : List Int) (r0 : Int),
      ((extract_crud_response op).request = CRUD_CREATE ∨
        (extract_crud_response op).request = CRUD_UPDATE) →
      transferLoop ((extract_crud_response op).length : Int) 0 pevs = some (r0 :: rest) →
      r0 ≠ 8 →
      (crud_client_operation true k op w (8 :: pevs)).1 = WireResult.err) ∧
    (∀ (k : Bool) (op w : Nat) (pevs rest : List Int),
      ((extract_crud_response op).request = CRUD_CREATE ∨
        (extract_crud_response op).request = CRUD_UPDATE) →
      transferLoop ((extract_crud_response op).length : Int) 0 pevs = some (8 :: rest) →
      (extract_crud_response w).request ≠ CRUD_READ →
      (crud_client_operation true k op w (8 :: pevs)).1 = WireResult.ok w) ∧
    (∀ (k : Bool) (op w : Nat) (pevs : List Int),
      ((extract_crud_response op).request = CRUD_CREATE ∨
        (extract_crud_response op).request = CRUD_UPDATE) →
      transferLoop ((extract_crud_response op).length : Int) 0 pevs = none →
      (crud_client_operation true k op w (8 :: pevs)).1 = WireResult.blocked) ∧
    (∀ (len acc : Int) (evs evs' : List Int), transferLoop len acc evs = some evs' →
      ∃ pre, evs = pre ++ evs' ∧ acc + pre.sum = len) := by
  refine ⟨?_, ?_, ?_, ?_, ?_⟩
  · intro k op w e rest h
    exact wire_reqword_short_err k op w e rest h
  · intro k op w pevs rest r0 hreq hloop h
    exact wire_respword_short_err k op w pevs rest r0 hreq hloop h
  · intro k op w pevs rest hreq hloop hresp
    exact wire_payload_never_err k op w pevs rest hreq hloop hresp
  · intro k op w pevs hreq hloop
    exact wire_payload_blocked k op w pevs hreq hloop
  · intro len acc evs evs' h
    exact transferLoop_exits_exact len evs acc evs' h

/-- Witness for C8's amended theorem: a short request-word write (7 of 8 bytes)
aborts the exchange with an error. -/
theorem C8_transport_loop_semantics_witness :
    ((7 : Int) ≠ 8) ∧
    (crud_client_operation true true 0 0 [7]).1 = WireResult.err :=
  ⟨by decide, C8_transport_loop_semantics.1 true 0 0 7 [] (by decide)⟩

theorem storeExchange_INIT (st : Store) (h : st.failScript = []) :
    storeExchange st (create_crud_request 0 CRUD_INIT 0 0 0) [] =
      ({ st with exchCount := st.exchCount + 1, failScript := [],
                 initCount := st.initCount + 1 },
       create_crud_request 0 CRUD_INIT 0 0 0, []) := by
  have hx : extract_crud_response (create_crud_request 0 CRUD_INIT 0 0 0) =
      ⟨0, CRUD_INIT, 0, 0, 0⟩ := by decide
  simp [storeExchange, h, hx]

theorem storeExchange_FORMAT (st : Store) (h : st.failScript = []) :
    storeExchange st (create_crud_request 0 CRUD_FORMAT 0 CRUD_NULL_FLAG 0) [] =
      ({ st with exchCount := st.exchCount + 1, failScript := [],
                 objects := [], nextOID := 1 },
       create_crud_request 0 CRUD_FORMAT 0 0 0, []) := by
  have hx : extract_crud_response (create_crud_request 0 CRUD_FORMAT 0 CRUD_NULL_FLAG 0) =
      ⟨0, CRUD_FORMAT, 0, 0, 0⟩ := by decide
  have d1 : CRUD_FORMAT ≠ CRUD_INIT := by decide
  simp [storeExchange, h, hx, d1]

theorem storeExchange_CREATE (st : Store) (count : Nat) (payload : List Nat)
    (hfs : st.failScript = []) (hcount : count < 2 ^ 24)
    (hnext : st.nextOID < 2 ^ 32) (hlook : storeLookup st.objects st.nextOID = none) :
    storeExchange st (create_crud_request 0 CRUD_CREATE count 0 0) payload =
      ({ st with objects := (st.nextOID, payload.take count) :: st.objects,
                 nextOID := st.nextOID + 1, exchCount := st.exchCount + 1,
                 failScript := [] },
       create_crud_request st.nextOID CRUD_CREATE count 0 0, []) := by
  have hx : extract_crud_response (create_crud_request 0 CRUD_CREATE count 0 0) =
      ⟨0, CRUD_CREATE, count, 0, 0⟩ :=
    extract_create_crud 0 CRUD_CREATE count 0 0 (by decide) (by decide) hcount
      (by decide) (by decide)
  have d1 : CRUD_CREATE ≠ CRUD_INIT := by decide
  have d2 : CRUD_CREATE ≠ CRUD_FORMAT := by decide
  have d3 : (0 : Nat) ≠ CRUD_PRIORITY_OBJECT := by decide
  simp [storeExchange, hfs, hx, d1, d2, d3, hnext, hlook]
  omega

theorem storeExchange_CREATE_PRIORITY (st : Store) (len : Nat) (payload : List Nat)
    (hfs : st.failScript = []) (hlen : len < 2 ^ 24)
    (hlook : storeLookup st.objects 0 = none) :
    storeExchange st (create_crud_request 0 CRUD_CREATE len CRUD_PRIORITY_OBJECT 0) payload =
      ({ st with objects := (0, payload.take len) :: st.objects,
                 exchCount := st.exchCount + 1, failScript := [] },
       create_crud_request 0 CRUD_CREATE len CRUD_PRIORITY_OBJECT 0, []) := by
  have hx : extract_crud_response (create_crud_request 0 CRUD_CREATE len CRUD_PRIORITY_OBJECT 0) =
      ⟨0, CRUD_CREATE, len, CRUD_PRIORITY_OBJECT, 0⟩ :=
    extract_create_crud 0 CRUD_CREATE len CRUD_PRIORITY_OBJECT 0 (by decide) (by decide) hlen
      (by decide) (by decide)
  have d1 : CRUD_CREATE ≠ CRUD_INIT := by decide
  have d2 : CRUD_CREATE ≠ CRUD_FORMAT := by decide
  simp [storeExchange, hfs, hx, d1, d2, hlook]

theorem storeExchange_READ (st : Store) (oid reqLen flag : Nat) (c : List Nat)
    (hfs : st.failScript = []) (hoid : oid < 2 ^ 32) (hreq : reqLen < 2 ^ 24)
    (hflag : flag < 2 ^ 3) (hc : storeLookup st.objects oid = some c) :
    storeExchange st (create_crud_request oid CRUD_READ reqLen flag 0) [] =
      ({ st with exchCount := st.exchCount + 1, failScript := [] },
       create_crud_request oid CRUD_READ c.length flag 0, c) := by
  have hx : extract_crud_response (create_crud_request oid CRUD_READ reqLen flag 0) =
      ⟨oid, CRUD_READ, reqLen, flag, 0⟩ :=
    extract_create_crud oid CRUD_READ reqLen flag 0 hoid (by decide) hreq hflag (by decide)
  have d1 : CRUD_READ ≠ CRUD_INIT := by decide
  have d2 : CRUD_READ ≠ CRUD_FORMAT := by decide
  have d3 : CRUD_READ ≠ CRUD_CREATE := by decide
  simp [storeExchange, hfs, hx, d1, d2, d3, hc]

theorem storeExchange_READ_missing (st : Store) (oid reqLen flag : Nat)
    (hfs : st.failScript = []) (hoid : oid < 2 ^ 32) (hreq : reqLen < 2 ^ 24)
    (hflag : flag < 2 ^ 3) (hc : storeLookup st.objects oid = none) :
    storeExchange st (create_crud_request oid CRUD_READ reqLen flag 0) [] =
      ({ st with exchCount := st.exchCount + 1, failScript := [],
                 failCount := st.failCount + 1 },
       create_crud_request oid CRUD_READ 0 flag 1, []) := by
  have hx : extract_crud_response (create_crud_request oid CRUD_READ reqLen flag 0) =
      ⟨oid, CRUD_READ, reqLen, flag, 0⟩ :=
    extract_create_crud oid CRUD_READ reqLen flag 0 hoid (by decide) hreq hflag (by decide)
  have d1 : CRUD_READ ≠ CRUD_INIT := by decide
  have d2 : CRUD_READ ≠ CRUD_FORMAT := by decide
  have d3 : CRUD_READ ≠ CRUD_CREATE := by decide
  simp [storeExchange, hfs, hx, d1, d2, d3, hc]

theorem storeExchange_UPDATE (st : Store) (oid len : Nat) (payload c : List Nat)
    (hfs : st.failScript = []) (hoid : oid < 2 ^ 32) (hlen : len < 2 ^ 24)
    (hc : storeLookup st.objects oid = some c) :
    storeExchange st (create_crud_request oid CRUD_UPDATE len 0 0) payload =
      ({ st with objects := storeReplace st.objects oid (payload.take len),
                 exchCount := st.exchCount + 1, failScript := [] },
       create_crud_request oid CRUD_UPDATE len 0 0, []) := by
  have hx : extract_crud_response (create_crud_request oid CRUD_UPDATE len 0 0) =
      ⟨oid, CRUD_UPDATE, len, 0, 0⟩ :=
    extract_create_crud oid CRUD_UPDATE len 0 0 hoid (by decide) hlen (by decide) (by decide)
  have d1 : CRUD_UPDATE ≠ CRUD_INIT := by decide
  have d2 : CRUD_UPDATE ≠ CRUD_FORMAT := by decide
  have d3 : CRUD_UPDATE ≠ CRUD_CREATE := by decide
  have d4 : CRUD_UPDATE ≠ CRUD_READ := by decide
  simp [storeExchange, hfs, hx, d1, d2, d3, d4, hc]

theorem storeExchange_DELETE (st : Store) (oid : Nat) (c : List Nat)
    (hfs : st.failScript = []) (hoid : oid < 2 ^ 32)
    (hc : storeLookup st.objects oid = some c) :
    storeExchange st (create_crud_request oid CRUD_DELETE 0 0 0) [] =
      ({ st with objects := storeErase st.objects oid,
                 exchCount := st.exchCount + 1, failScript := [] },
       create_crud_request oid CRUD_DELETE 0 0 0, []) := by
  have hx : extract_crud_response (create_crud_request oid CRUD_DELETE 0 0 0) =
      ⟨oid, CRUD_DELETE, 0, 0, 0⟩ :=
    extract_create_crud oid CRUD_DELETE 0 0 0 hoid (by decide) (by decide) (by decide)
      (by decide)
  have d1 : CRUD_DELETE ≠ CRUD_INIT := by decide
  have d2 : CRUD_DELETE ≠ CRUD_FORMAT := by decide
  have d3 : CRUD_DELETE ≠ CRUD_CREATE := by decide
  have d4 : CRUD_DELETE ≠ CRUD_READ := by decide
  have d5 : CRUD_DELETE ≠ CRUD_UPDATE := by decide
  simp [storeExchange, hfs, hx, d1, d2, d3, d4, d5, hc]

theorem crud_close_validation (s : FSState) (fd : Int)
    (h : (fd < 0 ∨ fd > (s.crud_file_table.length : Int) - 1) ∨
      (s.crud_file_table.getD fd.toNat default).isOpen = false) :
    crud_close s fd = (s, -1) := by
  rcases h with hr | ho
  · unfold crud_close
    rw [if_pos hr]
  · unfold crud_close
    by_cases hr : fd < 0 ∨ fd > (s.crud_file_table.length : Int) - 1
    · rw [if_pos hr]
    · rw [if_neg hr]
      rw [List.getD_eq_getElem?_getD] at ho
      simp [ho]

theorem crud_seek_validation (s : FSState) (fd : Int) (loc : Nat)
    (h : (fd < 0 ∨ fd > (s.crud_file_table.length : Int) - 1) ∨
      (s.crud_file_table.getD fd.toNat default).isOpen = false ∨
      loc > (s.crud_file_table.getD fd.toNat default).length) :
    crud_seek s fd loc = (s, -1) := by
  unfold crud_seek
  by_cases hr : fd < 0 ∨ fd > (s.crud_file_table.length : Int) - 1
  · rw [if_pos hr]
  · rw [if_neg hr]
    rcases h with hr' | ho | hl
    · exact absurd hr' hr
    · rw [List.getD_eq_getElem?_getD] at ho
      simp [ho]
    · rw [List.getD_eq_getElem?_getD] at hl
      by_cases ho : (s.crud_file_table.getD fd.toNat default).isOpen = false
      · rw [List.getD_eq_getElem?_getD] at ho
        simp [ho]
      · rw [List.getD_eq_getElem?_getD] at ho
        simp only [Bool.not_eq_false] at ho
        simp [ho, hl]

theorem crud_read_validation (s : FSState) (fd : Int) (buf : Option (List Nat)) (count : Int)
    (h : (fd < 0 ∨ fd > (s.crud_file_table.length : Int) - 1) ∨
      (s.crud_file_table.getD fd.toNat default).isOpen = false ∨ buf = none) :
    crud_read s fd buf count = (s, -1, buf.getD []) := by
  unfold crud_read
  by_cases hr : fd < 0 ∨ fd > (s.crud_file_table.length : Int) - 1
  · rw [if_pos hr]
  · rw [if_neg hr]
    rcases h with hr' | ho | hb
    · exact absurd hr' hr
    · rw [List.getD_eq_getElem?_getD] at ho
      simp [ho]
    · subst hb
      by_cases ho : (s.crud_file_table.getD fd.toNat default).isOpen = false
      · rw [List.getD_eq_getElem?_getD] at ho
        simp [ho]
      · rw [List.getD_eq_getElem?_getD] at ho
        simp only [Bool.not_eq_false] at ho
        simp [ho]

theorem crud_write_validation (s : FSState) (fd : Int) (buf : Option (List Nat)) (count : Int)
    (h : (fd < 0 ∨ fd > (s.crud_file_table.length : Int) - 1) ∨
      (s.crud_file_table.getD fd.toNat default).isOpen = false ∨ buf = none) :
    crud_write s fd buf count = (s, -1) := by
  unfold crud_write
  by_cases hr : fd < 0 ∨ fd > (s.crud_file_table.length : Int) - 1
  · rw [if_pos hr]
  · rw [if_neg hr]
    rcases h with hr' | ho | hb
    · exact absurd hr' hr
    · rw [List.getD_eq_getElem?_getD] at ho
      simp [ho]
    · subst hb
      by_cases ho : (s.crud_file_table.getD fd.toNat default).isOpen = false
      · rw [List.getD_eq_getElem?_getD] at ho
        simp [ho]
      · rw [List.getD_eq_getElem?_getD] at ho
        simp only [Bool.not_eq_false] at ho
        simp [ho]

theorem crud_open_full_initialized (s : FSState) (path : List Char)
    (hinit : s.INITIALIZED = true)
    (hm : lastMatchIdx s.crud_file_table path = none)
    (hf : firstFreeIdx s.crud_file_table = none) :
    crud_open s path = (s, -1) := by
  simp [crud_open, ensureInit, hinit, hm, hf]

theorem crud_open_full_uninitialized (s : FSState) (path : List Char)
    (hinit : s.INITIALIZED = false) (hfs : s.store.failScript = [])
    (hm : lastMatchIdx s.crud_file_table path = none)
    (hf : firstFreeIdx s.crud_file_table = none) :
    crud_open s path =
      ({ s with
          INITIALIZED := true
          store := { s.store with
            exchCount := s.store.exchCount + 1
            failScript := []
            initCount := s.store.initCount + 1 } },
       -1) := by
  have hres : extract_crud_response (create_crud_request 0 CRUD_INIT 0 0 0) =
      ⟨0, CRUD_INIT, 0, 0, 0⟩ := by decide
  simp [crud_open, ensureInit, hinit, hfs, storeExchange_INIT, hres, hm, hf]

/-- C7 counterexample: with `INITIALIZED = 0` and a full file table (one slot,
holding closed file "b"), `crud_open("a")` fails the full-table validation with
-1, yet an INIT network exchange was issued first and the session state changed
(`INITIALIZED` became 1, the store saw one exchange) — contradicting the claim
that every validation failure is detected before any network exchange is issued
and leaves session state and store unchanged. -/
theorem C7_counterexample :
    (crud_open ⟨[⟨['b'], 0, 0, 0, false⟩], false, initStore⟩ ['a']).2 = -1 ∧
    (crud_open ⟨[⟨['b'], 0, 0, 0, false⟩], false, initStore⟩ ['a']).1.store.exchCount = 1 ∧
    (crud_open ⟨[⟨['b'], 0, 0, 0, false⟩], false, initStore⟩ ['a']).1.store.initCount = 1 ∧
    (crud_open ⟨[⟨['b'], 0, 0, 0, false⟩], false, initStore⟩ ['a']).1.INITIALIZED = true ∧
    initStore.exchCount = 0 ∧ initStore.initCount = 0 := by
  decide

/-- C7 (amended): for `crud_close`, `crud_read`, `crud_write` and `crud_seek`,
every validation failure (out-of-range fd, handle not open, null buffer,
out-of-range seek target) is detected before any network exchange and returns
-1 with the whole driver state unchanged.  For `crud_open`, the full-table
failure returns -1 with the file table, flag and store unchanged when
`INITIALIZED` is already set; when it is not, the INIT exchange is issued
(and the flag set) before the full-table failure is detected — that exchange is
the only state change. -/
theorem C7_validation_atomicity :
    (∀ (s : FSState) (fd : Int),
      ((fd < 0 ∨ fd > (s.crud_file_table.length : Int) - 1) ∨
        (s.crud_file_table.getD fd.toNat default).isOpen = false) →
      crud_close s fd = (s, -1)) ∧
    (∀ (s : FSState) (fd : Int) (loc : Nat),
      ((fd < 0 ∨ fd > (s.crud_file_table.length : Int) - 1) ∨
        (s.crud_file_table.getD fd.toNat default).isOpen = false ∨
        loc > (s.crud_file_table.getD fd.toNat default).length) →
      crud_seek s fd loc = (s, -1)) ∧
    (∀ (s : FSState) (fd : Int) (buf : Option (List Nat)) (count : Int),
      ((fd < 0 ∨ fd > (s.crud_file_table.length : Int) - 1) ∨
        (s.crud_file_table.getD fd.toNat default).isOpen = false ∨ buf = none) →
      crud_read s fd buf count = (s, -1, buf.getD [])) ∧
    (∀ (s : FSState) (fd : Int) (buf : Option (List Nat)) (count : Int),
      ((fd < 0 ∨ fd > (s.crud_file_table.length : Int) - 1) ∨
        (s.crud_file_table.getD fd.toNat default).isOpen = false ∨ buf = none) →
      crud_write s fd buf count = (s, -1)) ∧
    (∀ (s : FSState) (path : List Char), s.INITIALIZED = true →
      lastMatchIdx s.crud_file_table path = none →
      firstFreeIdx s.crud_file_table = none →
      crud_open s path = (s, -1)) ∧
    (∀ (s : FSState) (path : List Char), s.INITIALIZED = false →
      s.store.failScript = [] →
      lastMatchIdx s.crud_file_table path = none →
      firstFreeIdx s.crud_file_table = none →
      (crud_open s path).2 = -1 ∧
      (crud_open s path).1.crud_file_table = s.crud_file_table ∧
      (crud_open s path).1.store.objects = s.store.objects ∧
      (crud_open s path).1.store.exchCount = s.store.exchCount + 1) := by
  refine ⟨crud_close_validation, crud_seek_validation, crud_read_validation,
    crud_write_validation, crud_open_full_initialized, ?_⟩
  intro s path hinit hfs hm hf
  rw [crud_open_full_uninitialized s path hinit hfs hm hf]
  refine ⟨rfl, rfl, rfl, rfl⟩

/-- Witness for C7's amended theorem: closing an out-of-range fd on the initial
one-slot state fails with -1 and changes nothing. -/
theorem C7_validation_atomicity_witness :
    (((5 : Int) < 0 ∨ (5 : Int) > ((initState 1).crud_file_table.length : Int) - 1) ∨
      ((initState 1).crud_file_table.getD (5 : Int).toNat default).isOpen = false) ∧
    crud_close (initState 1) 5 = (initState 1, -1) :=
  ⟨Or.inl (by decide), C7_validation_atomicity.1 (initState 1) 5 (Or.inl (by decide))⟩

theorem lastMatchIdx_eq_none (path : List Char) (t : List CrudFileAllocationType)
    (h : ∀ j, j < t.length →
      ¬((t.getD j default).filename ≠ [] ∧
        path.isPrefixOf (t.getD j default).filename = true)) :
    lastMatchIdx t path = none := by
  induction t with
  | nil => rfl
  | cons e r ih =>
    have hr : lastMatchIdx r path = none := by
      refine ih ?_
      intro j hj
      have := h (j + 1) (by simpa using Nat.succ_lt_succ hj)
      simpa using this
    have he := h 0 (by simp)
    simp only [lastMatchIdx, hr]
    rw [if_neg (by simpa using he)]

theorem lastMatchIdx_eq_some (path : List Char) (t : List CrudFileAllocationType)
    (i : Nat) (hi : i < t.length)
    (hmi : (t.getD i default).filename ≠ [] ∧
      path.isPrefixOf (t.getD i default).filename = true)
    (hafter : ∀ j, i < j → j < t.length →
      ¬((t.getD j default).filename ≠ [] ∧
        path.isPrefixOf (t.getD j default).filename = true)) :
    lastMatchIdx t path = some i := by
  induction t generalizing i with
  | nil => simp at hi
  | cons e r ih =>
    cases i with
    | zero =>
      have hr : lastMatchIdx r path = none := by
        refine lastMatchIdx_eq_none path r ?_
        intro j hj
        have := hafter (j + 1) (by omega) (by simpa using Nat.succ_lt_succ hj)
        simpa using this
      simp only [lastMatchIdx, hr]
      rw [if_pos (by simpa using hmi)]
    | succ n =>
      have hr : lastMatchIdx r path = some n := by
        refine ih n (by simpa using hi) (by simpa using hmi) ?_
        intro j hj hjl
        have := hafter (j + 1) (by omega) (by simpa using Nat.succ_lt_succ hjl)
        simpa using this
      simp [lastMatchIdx, hr]

theorem firstFreeIdx_eq_none (t : List CrudFileAllocationType)
    (h : ∀ j, j < t.length →
      ¬((t.getD j default).isOpen = false ∧ (t.getD j default).filename = [])) :
    firstFreeIdx t = none := by
  induction t with
  | nil => rfl
  | cons e r ih =>
    have hr : firstFreeIdx r = none := by
      refine ih ?_
      intro j hj
      have := h (j + 1) (by simpa using Nat.succ_lt_succ hj)
      simpa using this
    have he := h 0 (by simp)
    simp only [firstFreeIdx, hr]
    rw [if_neg (by simpa using he)]
    rfl

theorem firstFreeIdx_eq_some (t : List CrudFileAllocationType) (i : Nat)
    (hi : i < t.length)
    (hfi : (t.getD i default).isOpen = false ∧ (t.getD i default).filename = [])
    (hbefore : ∀ j, j < i →
      ¬((t.getD j default).isOpen = false ∧ (t.getD j default).filename = [])) :
    firstFreeIdx t = some i := by
  induction t generalizing i with
  | nil => simp at hi
  | cons e r ih =>
    cases i with
    | zero =>
      simp only [firstFreeIdx]
      rw [if_pos (by simpa using hfi)]
    | succ n =>
      have he := hbefore 0 (by omega)
      have hr : firstFreeIdx r = some n := by
        refine ih n (by simpa using hi) (by simpa using hfi) ?_
        intro j hj
        have := hbefore (j + 1) (by omega)
        simpa using this
      simp only [firstFreeIdx, hr]
      rw [if_neg (by simpa using he)]
      rfl

theorem crud_open_reuse (s : FSState) (path : List Char) (i : Nat)
    (hinit : s.INITIALIZED = true)
    (h : lastMatchIdx s.crud_file_table path = some i) :
    crud_open s path =
      ({ s with crud_file_table := updateEntry s.crud_file_table i (fun e => { e with isOpen := true, position := 0 }) }, (i : Int)) := by
  simp [crud_open, ensureInit, hinit, h]

theorem crud_open_claim (s : FSState) (path : List Char) (i : Nat)
    (hinit : s.INITIALIZED = true)
    (hm : lastMatchIdx s.crud_file_table path = none)
    (hf : firstFreeIdx s.crud_file_table = some i) :
    crud_open s path =
      ({ s with crud_file_table := updateEntry s.crud_file_table i (fun e => { e with isOpen := true, filename := path, object_id := CRUD_NO_OBJECT, length := 0, position := 0 }) }, (i : Int)) := by
  simp [crud_open, ensureInit, hinit, hm, hf]

/-- C3 counterexample: with table slot 0 holding closed file "a" and slot 1
holding closed file "ab" (a reachable state: open "a" then open "ab" from the
empty table), `crud_open("a")` returns handle 1 and opens slot 1 — not the slot
whose filename equals the path.  The scan uses
`strncmp(filename, path, strlen(path))`, a prefix match, and the last matching
slot wins, so "a" matches the entry named "ab". -/
theorem C3_counterexample :
    (crud_open ⟨[⟨['a'], 0, 0, 0, false⟩, ⟨['a', 'b'], 0, 0, 0, false⟩], true, initStore⟩
        ['a']).2 = 1 ∧
    ((⟨[⟨['a'], 0, 0, 0, false⟩, ⟨['a', 'b'], 0, 0, 0, false⟩], true, initStore⟩ :
        FSState).crud_file_table.getD 0 default).filename = ['a'] ∧
    ((crud_open ⟨[⟨['a'], 0, 0, 0, false⟩, ⟨['a', 'b'], 0, 0, 0, false⟩], true, initStore⟩
        ['a']).1.crud_file_table.getD 1 default).isOpen = true ∧
    ((1 : Int) ≠ 0) := by
  decide

/-- C3 (amended): `crud_open(path)` on an initialized store reuses the LAST
slot whose filename is non-empty and has `path` as a PREFIX (not necessarily
equal), marking it open with position 0 and returning its index; when no slot's
filename has `path` as a prefix, the first slot that is both not open and has
an empty filename is claimed (filename set, no object, length 0, position 0,
open) and its index returned; -1 is returned exactly when neither exists. -/
theorem C3_crud_open_semantics (s : FSState) (path : List Char)
    (hinit : s.INITIALIZED = true) :
    (∀ i, i < s.crud_file_table.length →
      ((s.crud_file_table.getD i default).filename ≠ [] ∧
        path.isPrefixOf (s.crud_file_table.getD i default).filename = true) →
      (∀ j, i < j → j < s.crud_file_table.length →
        ¬((s.crud_file_table.getD j default).filename ≠ [] ∧
          path.isPrefixOf (s.crud_file_table.getD j default).filename = true)) →
      crud_open s path =
        ({ s with crud_file_table := updateEntry s.crud_file_table i (fun e => { e with isOpen := true, position := 0 }) }, (i : Int))) ∧
    ((∀ j, j < s.crud_file_table.length →
      ¬((s.crud_file_table.getD j default).filename ≠ [] ∧
        path.isPrefixOf (s.crud_file_table.getD j default).filename = true)) →
      ∀ i, i < s.crud_file_table.length →
      ((s.crud_file_table.getD i default).isOpen = false ∧
        (s.crud_file_table.getD i default).filename = []) →
      (∀ j, j < i →
        ¬((s.crud_file_table.getD j default).isOpen = false ∧
          (s.crud_file_table.getD j default).filename = [])) →
      crud_open s path =
        ({ s with crud_file_table := updateEntry s.crud_file_table i (fun e => { e with isOpen := true, filename := path, object_id := CRUD_NO_OBJECT, length := 0, position := 0 }) }, (i : Int))) ∧
    ((∀ j, j < s.crud_file_table.length →
      ¬((s.crud_file_table.getD j default).filename ≠ [] ∧
        path.isPrefixOf (s.crud_file_table.getD j default).filename = true)) →
      (∀ j, j < s.crud_file_table.length →
        ¬((s.crud_file_table.getD j default).isOpen = false ∧
          (s.crud_file_table.getD j default).filename = [])) →
      crud_open s path = (s, -1)) := by
  refine ⟨?_, ?_, ?_⟩
  · intro i hi hmi hafter
    exact crud_open_reuse s path i hinit
      (lastMatchIdx_eq_some path s.crud_file_table i hi hmi hafter)
  · intro hnone i hi hfi hbefore
    exact crud_open_claim s path i hinit
      (lastMatchIdx_eq_none path s.crud_file_table hnone)
      (firstFreeIdx_eq_some s.crud_file_table i hi hfi hbefore)
  · intro hnone hfull
    exact crud_open_full_initialized s path hinit
      (lastMatchIdx_eq_none path s.crud_file_table hnone)
      (firstFreeIdx_eq_none s.crud_file_table hfull)

/-- Witness for C3's amended theorem: opening "a" on an initialized one-slot
table holding closed file "ab" reuses that slot (prefix match) and returns 0. -/
theorem C3_crud_open_semantics_witness :
    ((⟨[⟨['a', 'b'], 5, 2, 3, false⟩], true, initStore⟩ : FSState).INITIALIZED = true) ∧
    crud_open ⟨[⟨['a', 'b'], 5, 2, 3, false⟩], true, initStore⟩ ['a'] =
      ({ (⟨[⟨['a', 'b'], 5, 2, 3, false⟩], true, initStore⟩ : FSState) with
          crud_file_table := updateEntry [⟨['a', 'b'], 5, 2, 3, false⟩] 0 (fun e => { e with isOpen := true, position := 0 }) }, (0 : Int)) := by
  refine ⟨rfl, (C3_crud_open_semantics _ ['a'] rfl).1 0 (by decide) (by decide) ?_⟩
  intro j hj hjl
  simp at hjl
  omega

/-- C9 counterexample: slot 0 holds the closed file named "a" (with a backing
object and nonzero length) and slot 1 the closed file "ab"; the filename "a" is
present in the table, yet `crud_open("a")` modifies slot 1 — a DIFFERENT table
entry — marking it open (and returns handle 1), while the entry whose filename
equals the path stays closed.  The claim that a successful reopen modifies only
the entry with the matching name (and leaves every other table entry unchanged)
fails because the scan prefix-matches and the last match wins. -/
theorem C9_counterexample :
    ((crud_open ⟨[⟨['a'], 7, 2, 3, false⟩, ⟨['a', 'b'], 9, 1, 4, false⟩], true, initStore⟩
        ['a']).1.crud_file_table.getD 1 default).isOpen = true ∧
    ((⟨[⟨['a'], 7, 2, 3, false⟩, ⟨['a', 'b'], 9, 1, 4, false⟩], true, initStore⟩ :
        FSState).crud_file_table.getD 1 default).isOpen = false ∧
    ((⟨[⟨['a'], 7, 2, 3, false⟩, ⟨['a', 'b'], 9, 1, 4, false⟩], true, initStore⟩ :
        FSState).crud_file_table.getD 0 default).filename = ['a'] ∧
    ((crud_open ⟨[⟨['a'], 7, 2, 3, false⟩, ⟨['a', 'b'], 9, 1, 4, false⟩], true, initStore⟩
        ['a']).1.crud_file_table.getD 0 default).isOpen = false ∧
    (crud_open ⟨[⟨['a'], 7, 2, 3, false⟩, ⟨['a', 'b'], 9, 1, 4, false⟩], true, initStore⟩
        ['a']).2 = 1 := by
  decide

/-- C9 (amended): when the store is initialized and slot `i` is the LAST slot
whose non-empty filename has `path` as a prefix, a successful `crud_open(path)`
modifies only that slot, and only its open flag (set) and position (reset to
0); its object id, length and filename, every other table entry, the
INITIALIZED flag and the whole store are unchanged — so a file's backing object
and length survive a close followed by a reopen. -/
theorem C9_reopen_frame (s : FSState) (path : List Char) (i : Nat)
    (hinit : s.INITIALIZED = true) (hi : i < s.crud_file_table.length)
    (hmi : (s.crud_file_table.getD i default).filename ≠ [] ∧
      path.isPrefixOf (s.crud_file_table.getD i default).filename = true)
    (hafter : ∀ j, i < j → j < s.crud_file_table.length →
      ¬((s.crud_file_table.getD j default).filename ≠ [] ∧
        path.isPrefixOf (s.crud_file_table.getD j default).filename = true)) :
    (crud_open s path).2 = (i : Int) ∧
    (crud_open s path).1.store = s.store ∧
    (crud_open s path).1.INITIALIZED = s.INITIALIZED ∧
    (∀ j, j ≠ i → (crud_open s path).1.crud_file_table.getD j default =
      s.crud_file_table.getD j default) ∧
    ((crud_open s path).1.crud_file_table.getD i default).filename =
      (s.crud_file_table.getD i default).filename ∧
    ((crud_open s path).1.crud_file_table.getD i default).object_id =
      (s.crud_file_table.getD i default).object_id ∧
    ((crud_open s path).1.crud_file_table.getD i default).length =
      (s.crud_file_table.getD i default).length ∧
    ((crud_open s path).1.crud_file_table.getD i default).isOpen = true ∧
    ((crud_open s path).1.crud_file_table.getD i default).position = 0 := by
  rw [crud_open_reuse s path i hinit
    (lastMatchIdx_eq_some path s.crud_file_table i hi hmi hafter)]
  refine ⟨rfl, rfl, by simp [hinit], ?_, ?_, ?_, ?_, ?_, ?_⟩
  · intro j hj
    exact getD_updateEntry_ne s.crud_file_table i j _ hj
  all_goals rw [getD_updateEntry_self s.crud_file_table i _ hi]

/-- Witness for C9's amended theorem at a concrete one-slot state. -/
theorem C9_reopen_frame_witness :
    ((⟨[⟨['a', 'b'], 5, 2, 3, false⟩], true, initStore⟩ : FSState).INITIALIZED = true) ∧
    (crud_open ⟨[⟨['a', 'b'], 5, 2, 3, false⟩], true, initStore⟩ ['a']).2 = (0 : Int) ∧
    ((crud_open ⟨[⟨['a', 'b'], 5, 2, 3, false⟩], true, initStore⟩
        ['a']).1.crud_file_table.getD 0 default).object_id = 5 := by
  have h := C9_reopen_frame ⟨[⟨['a', 'b'], 5, 2, 3, false⟩], true, initStore⟩ ['a'] 0
    rfl (by decide) (by decide) (by intro j hj hjl; simp at hjl; omega)
  refine ⟨rfl, ?_, ?_⟩
  · exact_mod_cast h.1
  · rw [h.2.2.2.2.2.1]
    decide

theorem storeExchange_failScript (st : Store) (w : Nat) (p : List Nat) :
    (storeExchange st w p).1.failScript = st.failScript.tail := by
  simp only [storeExchange]
  repeat' split
  all_goals rfl

theorem storeExchange_initCount (st : Store) (w : Nat) (p : List Nat)
    (h : (extract_crud_response w).request ≠ CRUD_INIT) :
    (storeExchange st w p).1.initCount = st.initCount := by
  simp only [storeExchange]
  repeat' split
  all_goals first
  | rfl
  | (exfalso; exact h (by assumption))

theorem deserializeTable_length (n : Nat) (bs : List Nat) :
    (deserializeTable n bs).length = n := by
  induction n generalizing bs with
  | zero => rfl
  | succ m ih => simp [deserializeTable, ih]

theorem storeExchange_CREATE_PRIORITY_nil (st : Store) (len : Nat) (payload : List Nat)
    (hfs : st.failScript = []) (hob : st.objects = []) (hlen : len < 2 ^ 24) :
    storeExchange st (create_crud_request 0 CRUD_CREATE len CRUD_PRIORITY_OBJECT 0) payload =
      ({ st with objects := (0, payload.take len) :: st.objects,
                 exchCount := st.exchCount + 1, failScript := [] },
       create_crud_request 0 CRUD_CREATE len CRUD_PRIORITY_OBJECT 0, []) :=
  storeExchange_CREATE_PRIORITY st len payload hfs hlen (by rw [hob]; rfl)

theorem crud_format_step (s : FSState)
    (hb : CRUD_RECORD_SIZE * s.crud_file_table.length < 2 ^ 24)
    (hfs : s.store.failScript = []) :
    (crud_format s).1.crud_file_table.length = s.crud_file_table.length ∧
    (crud_format s).1.store.failScript = [] ∧
    (crud_format s).1.INITIALIZED = true ∧
    (crud_format s).1.store.initCount =
      (if s.INITIALIZED then s.store.initCount else s.store.initCount + 1) := by
  have hres0 : extract_crud_response (create_crud_request 0 CRUD_INIT 0 0 0) =
      ⟨0, CRUD_INIT, 0, 0, 0⟩ := by decide
  have hres1 : extract_crud_response (create_crud_request 0 CRUD_FORMAT 0 0 0) =
      ⟨0, CRUD_FORMAT, 0, 0, 0⟩ := by decide
  have hres2 := extract_create_crud 0 CRUD_CREATE
    (CRUD_RECORD_SIZE * s.crud_file_table.length) CRUD_PRIORITY_OBJECT 0
    (by decide) (by decide) hb (by decide) (by decide)
  by_cases hinit : s.INITIALIZED
  · simp only [crud_format, ensureInit, hinit, if_true, reduceIte, hfs,
      storeExchange_FORMAT, hres1]
    rw [storeExchange_CREATE_PRIORITY_nil
      { objects := [], nextOID := 1, initCount := s.store.initCount,
        exchCount := s.store.exchCount + 1, failCount := s.store.failCount,
        failScript := [] }
      (CRUD_RECORD_SIZE * s.crud_file_table.length)
      (serializeTable (List.replicate s.crud_file_table.length emptyEntry))
      rfl rfl hb]
    simp [hres2, hinit]
  · simp only [crud_format, ensureInit, hinit, Bool.false_eq_true, if_false, reduceIte,
      hfs, storeExchange_INIT, hres0, storeExchange_FORMAT, hres1]
    rw [storeExchange_CREATE_PRIORITY_nil
      { objects := [], nextOID := 1, initCount := s.store.initCount + 1,
        exchCount := s.store.exchCount + 1 + 1, failCount := s.store.failCount,
        failScript := [] }
      (CRUD_RECORD_SIZE * s.crud_file_table.length)
      (serializeTable (List.replicate s.crud_file_table.length emptyEntry))
      rfl rfl hb]
    simp [hres2, hinit]

theorem crud_mount_step (s : FSState)
    (hb : CRUD_RECORD_SIZE * s.crud_file_table.length < 2 ^ 24)
    (hfs : s.store.failScript = []) :
    (crud_mount s).1.crud_file_table.length = s.crud_file_table.length ∧
    (crud_mount s).1.store.failScript = [] ∧
    (crud_mount s).1.INITIALIZED = true ∧
    (crud_mount s).1.store.initCount =
      (if s.INITIALIZED then s.store.initCount else s.store.initCount + 1) := by
  have hres0 : extract_crud_response (create_crud_request 0 CRUD_INIT 0 0 0) =
      ⟨0, CRUD_INIT, 0, 0, 0⟩ := by decide
  have hword := extract_create_crud 0 CRUD_READ
    (CRUD_RECORD_SIZE * s.crud_file_table.length) CRUD_PRIORITY_OBJECT 0
    (by decide) (by decide) hb (by decide) (by decide)
  have hreq : (extract_crud_response (create_crud_request 0 CRUD_READ
      (CRUD_RECORD_SIZE * s.crud_file_table.length) CRUD_PRIORITY_OBJECT 0)).request ≠
      CRUD_INIT := by
    rw [hword]
    show CRUD_READ ≠ CRUD_INIT
    decide
  by_cases hinit : s.INITIALIZED
  · simp only [crud_mount, ensureInit, hinit, if_true, reduceIte]
    generalize hX : storeExchange s.store (create_crud_request 0 CRUD_READ
      (CRUD_RECORD_SIZE * s.crud_file_table.length) CRUD_PRIORITY_OBJECT 0) [] = X
    obtain ⟨st', w', pl⟩ := X
    have hfs' : st'.failScript = [] := by
      have h := storeExchange_failScript s.store (create_crud_request 0 CRUD_READ
        (CRUD_RECORD_SIZE * s.crud_file_table.length) CRUD_PRIORITY_OBJECT 0) []
      rw [hX] at h
      simpa [hfs] using h
    have hic : st'.initCount = s.store.initCount := by
      have h := storeExchange_initCount s.store (create_crud_request 0 CRUD_READ
        (CRUD_RECORD_SIZE * s.crud_file_table.length) CRUD_PRIORITY_OBJECT 0) [] hreq
      rw [hX] at h
      simpa using h
    by_cases hr : (extract_crud_response w').result = 0
    · simp [hr, hfs', hic, hinit, deserializeTable_length]
    · simp [hr, hfs', hic, hinit]
  · simp only [crud_mount, ensureInit, hinit, Bool.false_eq_true, if_false, reduceIte,
      hfs, storeExchange_INIT, hres0]
    generalize hX : storeExchange { objects := s.store.objects, nextOID := s.store.nextOID, initCount := s.store.initCount + 1, exchCount := s.store.exchCount + 1, failCount := s.store.failCount, failScript := [] } (create_crud_request 0 CRUD_READ (CRUD_RECORD_SIZE * s.crud_file_table.length) CRUD_PRIORITY_OBJECT 0) [] = X
    obtain ⟨st', w', pl⟩ := X
    have hfs' : st'.failScript = [] := by
      have h := storeExchange_failScript { objects := s.store.objects, nextOID := s.store.nextOID, initCount := s.store.initCount + 1, exchCount := s.store.exchCount + 1, failCount := s.store.failCount, failScript := [] } (create_crud_request 0 CRUD_READ (CRUD_RECORD_SIZE * s.crud_file_table.length) CRUD_PRIORITY_OBJECT 0) []
      rw [hX] at h
      simpa using h
    have hic : st'.initCount = s.store.initCount + 1 := by
      have h := storeExchange_initCount { objects := s.store.objects, nextOID := s.store.nextOID, initCount := s.store.initCount + 1, exchCount := s.store.exchCount + 1, failCount := s.store.failCount, failScript := [] } (create_crud_request 0 CRUD_READ (CRUD_RECORD_SIZE * s.crud_file_table.length) CRUD_PRIORITY_OBJECT 0) [] hreq
      rw [hX] at h
      simpa using h
    by_cases hr : (extract_crud_response w').result = 0
    · simp [hr, hfs', hic, hinit, deserializeTable_length]
    · simp [hr, hfs', hic, hinit]

theorem crud_open_step (s : FSState) (path : List Char)
    (hfs : s.store.failScript = []) :
    (crud_open s path).1.crud_file_table.length = s.crud_file_table.length ∧
    (crud_open s path).1.store.failScript = [] ∧
    (crud_open s path).1.INITIALIZED = true ∧
    (crud_open s path).1.store.initCount =
      (if s.INITIALIZED then s.store.initCount else s.store.initCount + 1) := by
  have hres0 : extract_crud_response (create_crud_request 0 CRUD_INIT 0 0 0) =
      ⟨0, CRUD_INIT, 0, 0, 0⟩ := by decide
  by_cases hinit : s.INITIALIZED
  all_goals
    cases hm : lastMatchIdx s.crud_file_table path with
    | some i =>
      simp [crud_open, ensureInit, hinit, hfs, storeExchange_INIT, hres0, hm,
        updateEntry_length]
    | none =>
      cases hf : firstFreeIdx s.crud_file_table with
      | some i =>
        simp [crud_open, ensureInit, hinit, hfs, storeExchange_INIT, hres0, hm, hf,
          updateEntry_length]
      | none =>
        simp [crud_open, ensureInit, hinit, hfs, storeExchange_INIT, hres0, hm, hf]

theorem runMOp_inv (s : FSState) (op : MOp)
    (hb : CRUD_RECORD_SIZE * s.crud_file_table.length < 2 ^ 24)
    (hfs : s.store.failScript = []) :
    (runMOp s op).crud_file_table.length = s.crud_file_table.length ∧
    (runMOp s op).store.failScript = [] ∧
    (runMOp s op).INITIALIZED = true ∧
    (runMOp s op).store.initCount =
      (if s.INITIALIZED then s.store.initCount else s.store.initCount + 1) := by
  cases op with
  | fmt => exact crud_format_step s hb hfs
  | mnt => exact crud_mount_step s hb hfs
  | opn p => exact crud_open_step s p hfs

theorem runMOps_initCount (ops : List MOp) : ∀ (s : FSState),
    CRUD_RECORD_SIZE * s.crud_file_table.length < 2 ^ 24 →
    s.store.failScript = [] →
    ((s.INITIALIZED = false ∧ s.store.initCount = 0) ∨
      (s.INITIALIZED = true ∧ s.store.initCount ≤ 1)) →
    (runMOps s ops).store.initCount ≤ 1 := by
  induction ops with
  | nil =>
    intro s _ _ hd
    rcases hd with ⟨_, h0⟩ | ⟨_, h1⟩
    · simp [runMOps, h0]
    · simpa [runMOps] using h1
  | cons op rest ih =>
    intro s hb hfs hd
    have hstep := runMOp_inv s op hb hfs
    have hrun : runMOps s (op :: rest) = runMOps (runMOp s op) rest := rfl
    rw [hrun]
    refine ih (runMOp s op) (by rw [hstep.1]; exact hb) hstep.2.1 (Or.inr ⟨hstep.2.2.1, ?_⟩)
    rw [hstep.2.2.2]
    rcases hd with ⟨hf, h0⟩ | ⟨ht, h1⟩
    · simp [hf, h0]
    · simp [ht, h1]

/-- C10 counterexample: if the first INIT exchange fails (the store answers
with result bit 1), `crud_format` returns -1 without setting INITIALIZED, and
the next call (`crud_mount`) sends INIT again: across the two calls the
CRUD_INIT request is sent twice, contradicting "the CRUD_INIT request is sent
at most once". -/
theorem C10_counterexample :
    (crud_format { initState 1 with
        store := { initStore with failScript := [true] } }).2 = -1 ∧
    (crud_format { initState 1 with
        store := { initStore with failScript := [true] } }).1.store.initCount = 1 ∧
    (crud_format { initState 1 with
        store := { initStore with failScript := [true] } }).1.INITIALIZED = false ∧
    (runMOps { initState 1 with
        store := { initStore with failScript := [true] } }
      [MOp.fmt, MOp.mnt]).store.initCount = 2 := by
  decide

/-- C10 (amended): each of crud_format, crud_mount and crud_open issues INIT
only while the INITIALIZED flag is 0 and sets the flag exactly on a successful
INIT response; hence once the flag is set every later call skips the INIT
exchange entirely, and in any sequence of such calls from process start in
which every INIT exchange succeeds, the CRUD_INIT request is sent at most
once.  (If an INIT exchange fails, the flag stays 0 and a later call retries
INIT, so "at most once" holds only for runs whose INIT exchanges succeed.)
The table-image bound keeps format's and mount's priority-object length inside
the 24-bit wire field. -/
theorem C10_init_at_most_once :
    (∀ (s : FSState) (op : MOp),
      CRUD_RECORD_SIZE * s.crud_file_table.length < 2 ^ 24 →
      s.store.failScript = [] → s.INITIALIZED = true →
      (runMOp s op).store.initCount = s.store.initCount) ∧
    (∀ (s : FSState) (op : MOp),
      CRUD_RECORD_SIZE * s.crud_file_table.length < 2 ^ 24 →
      s.store.failScript = [] → s.INITIALIZED = false →
      (runMOp s op).store.initCount = s.store.initCount + 1 ∧
      (runMOp s op).INITIALIZED = true) ∧
    (∀ (n : Nat) (ops : List MOp), CRUD_RECORD_SIZE * n < 2 ^ 24 →
      (runMOps (initState n) ops).store.initCount ≤ 1) := by
  refine ⟨?_, ?_, ?_⟩
  · intro s op hb hfs hinit
    rw [(runMOp_inv s op hb hfs).2.2.2, if_pos hinit]
  · intro s op hb hfs hinit
    have h := runMOp_inv s op hb hfs
    rw [h.2.2.2]
    refine ⟨?_, h.2.2.1⟩
    rw [hinit]
    simp
  · intro n ops hb
    refine runMOps_initCount ops (initState n) ?_ rfl (Or.inl ⟨rfl, rfl⟩)
    simpa [initState] using hb

/-- Witness for C10's amended theorem: a single format call from process start
sends at most one INIT. -/
theorem C10_init_at_most_once_witness :
    (CRUD_RECORD_SIZE * 1 < 2 ^ 24) ∧
    (runMOps (initState 1) [MOp.fmt]).store.initCount ≤ 1 :=
  ⟨by decide, C10_init_at_most_once.2.2 1 [MOp.fmt] (by decide)⟩

theorem crud_read_zero (s : FSState) (fd : Int) (e : CrudFileAllocationType)
    (b : List Nat) (count : Int)
    (hfd : 0 ≤ fd) (hfd2 : fd ≤ (s.crud_file_table.length : Int) - 1)
    (he : s.crud_file_table.getD fd.toNat default = e) (hopen : e.isOpen = true)
    (h : e.length = 0 ∨ count < 1) :
    crud_read s fd (some b) count = (s, 0, b) := by
  have hneg : ¬(fd < 0 ∨ fd > (s.crud_file_table.length : Int) - 1) := by omega
  unfold crud_read
  rw [if_neg hneg, he, if_neg (by simp [hopen])]
  rcases h with h0 | hc
  · simp [h0]
  · by_cases h0 : e.length = 0
    · simp [h0]
    · simp only [h0, if_false, reduceIte]
      rw [if_pos hc]

theorem crud_read_spec (s : FSState) (fd : Int) (e : CrudFileAllocationType)
    (b c : List Nat) (count : Int)
    (hfd : 0 ≤ fd) (hfd2 : fd ≤ (s.crud_file_table.length : Int) - 1)
    (he : s.crud_file_table.getD fd.toNat default = e) (hopen : e.isOpen = true)
    (hne : e.length ≠ 0) (hcount : 1 ≤ count)
    (hfs : s.store.failScript = []) (hoid : e.object_id < 2 ^ 32)
    (hclen : c.length < 2 ^ 24)
    (hc : storeLookup s.store.objects e.object_id = some c) :
    crud_read s fd (some b) count =
      ({ s with
          store := { s.store with exchCount := s.store.exchCount + 1, failScript := [] }
          crud_file_table := updateEntry (updateEntry s.crud_file_table fd.toNat (fun x => { x with object_id := e.object_id, length := c.length })) fd.toNat (fun x => { x with position := e.position + min count.toNat (c.length - e.position) }) },
       ((min count.toNat (c.length - e.position) : Nat) : Int),
       memcpyAt b 0 ((c.drop e.position).take count.toNat)) := by
  have hfdn : fd.toNat < s.crud_file_table.length := by omega
  have hneg : ¬(fd < 0 ∨ fd > (s.crud_file_table.length : Int) - 1) := by omega
  have hx := extract_create_crud e.object_id CRUD_READ c.length 0 0 hoid (by decide)
    hclen (by decide) (by decide)
  unfold crud_read
  rw [if_neg hneg, he, if_neg (by simp [hopen])]
  simp only [if_neg hne, if_neg (by omega : ¬count < 1)]
  rw [storeExchange_READ s.store e.object_id CRUD_MAX_OBJECT_SIZE 0 c hfs hoid
    (by decide) (by decide) hc]
  simp only [hx]
  rw [getD_updateEntry_self s.crud_file_table fd.toNat _ hfdn, he]
  simp only []
  rw [readLoop_spec c count.toNat e.position]
  simp only [List.length_take, List.length_drop]
  rfl

/-- C4: for an open in-range fd with entry `e` and a non-null buffer, if
`e.length = 0` or `count < 1` then `crud_read` returns 0 transferred bytes with
the whole state (hence the store) untouched; otherwise, when the whole-object
READ succeeds (the store holds the backing object `c`, whose length the entry
mirrors), it returns exactly `min(count, length - position)` (0 when the
position is at or past the length), copies exactly those bytes of the object
starting at `position` into the caller's buffer, advances the position by
exactly that amount, and changes no other table entry and no store object. -/
theorem C4_crud_read_postcondition (s : FSState) (fd : Int) (e : CrudFileAllocationType)
    (b : List Nat) (count : Int)
    (hfd : 0 ≤ fd) (hfd2 : fd ≤ (s.crud_file_table.length : Int) - 1)
    (he : s.crud_file_table.getD fd.toNat default = e) (hopen : e.isOpen = true) :
    ((e.length = 0 ∨ count < 1) →
      crud_read s fd (some b) count = (s, 0, b)) ∧
    (∀ c : List Nat, e.length ≠ 0 → 1 ≤ count →
      s.store.failScript = [] → e.object_id < 2 ^ 32 → c.length < 2 ^ 24 →
      storeLookup s.store.objects e.object_id = some c → c.length = e.length →
      (crud_read s fd (some b) count).2.1 =
        ((min count.toNat (e.length - e.position) : Nat) : Int) ∧
      (crud_read s fd (some b) count).2.2 =
        memcpyAt b 0 ((c.drop e.position).take count.toNat) ∧
      ((crud_read s fd (some b) count).1.crud_file_table.getD fd.toNat default).position =
        e.position + min count.toNat (e.length - e.position) ∧
      ((crud_read s fd (some b) count).1.crud_file_table.getD fd.toNat default).length =
        e.length ∧
      (∀ j, j ≠ fd.toNat →
        (crud_read s fd (some b) count).1.crud_file_table.getD j default =
          s.crud_file_table.getD j default) ∧
      (crud_read s fd (some b) count).1.store.objects = s.store.objects) := by
  refine ⟨fun h => crud_read_zero s fd e b count hfd hfd2 he hopen h, ?_⟩
  intro c hne hcount hfs hoid hclen hc hlen
  rw [crud_read_spec s fd e b c count hfd hfd2 he hopen hne hcount hfs hoid hclen hc]
  have hfdn : fd.toNat < s.crud_file_table.length := by omega
  have hfdn1 : fd.toNat < (updateEntry s.crud_file_table fd.toNat
      (fun x => { x with object_id := e.object_id, length := c.length })).length := by
    rw [updateEntry_length]
    exact hfdn
  refine ⟨by rw [hlen], rfl, ?_, ?_, ?_, rfl⟩
  · rw [getD_updateEntry_self _ _ _ hfdn1]
    simp [hlen]
  · rw [getD_updateEntry_self _ _ _ hfdn1,
      getD_updateEntry_self s.crud_file_table fd.toNat _ hfdn]
    simp [hlen]
  · intro j hj
    rw [getD_updateEntry_ne _ _ _ _ hj, getD_updateEntry_ne _ _ _ _ hj]

/-- Witness for C4 on a concrete state: the file holds object [10,11,12] of
length 3 at position 1; reading 5 bytes returns the 2 remaining bytes 11,12
(a short read at end of content). -/
theorem C4_crud_read_postcondition_witness :
    (crud_read ⟨[⟨['a'], 1, 1, 3, true⟩], true, { initStore with objects := [(1, [10, 11, 12])], nextOID := 2 }⟩ 0 (some [0, 0, 0, 0, 0]) 5).2.1 = 2 ∧
    (crud_read ⟨[⟨['a'], 1, 1, 3, true⟩], true, { initStore with objects := [(1, [10, 11, 12])], nextOID := 2 }⟩ 0 (some [0, 0, 0, 0, 0]) 5).2.2 = [11, 12, 0, 0, 0] := by
  have h := (C4_crud_read_postcondition
    ⟨[⟨['a'], 1, 1, 3, true⟩], true, { initStore with objects := [(1, [10, 11, 12])], nextOID := 2 }⟩
    0 ⟨['a'], 1, 1, 3, true⟩ [0, 0, 0, 0, 0] 5
    (by decide) (by decide) rfl rfl).2 [10, 11, 12]
    (by decide) (by decide) rfl (by decide) (by decide) rfl rfl
  refine ⟨?_, ?_⟩
  · rw [h.1]
    decide
  · rw [h.2.1]
    decide

theorem crud_seek_spec (s : FSState) (fd : Int) (e : CrudFileAllocationType) (loc : Nat)
    (hfd : 0 ≤ fd) (hfd2 : fd ≤ (s.crud_file_table.length : Int) - 1)
    (he : s.crud_file_table.getD fd.toNat default = e) (hopen : e.isOpen = true)
    (hloc : loc ≤ e.length) :
    crud_seek s fd loc =
      ({ s with crud_file_table := updateEntry s.crud_file_table fd.toNat (fun x => { x with position := loc }) }, 0) := by
  have hneg : ¬(fd < 0 ∨ fd > (s.crud_file_table.length : Int) - 1) := by omega
  unfold crud_seek
  rw [if_neg hneg, he, if_neg (by simp [hopen]), if_neg (by omega)]

theorem crud_write_create_spec (s : FSState) (fd : Int) (e : CrudFileAllocationType)
    (b : List Nat) (count : Int)
    (hfd : 0 ≤ fd) (hfd2 : fd ≤ (s.crud_file_table.length : Int) - 1)
    (he : s.crud_file_table.getD fd.toNat default = e) (hopen : e.isOpen = true)
    (hno : e.object_id = CRUD_NO_OBJECT)
    (hcount : 1 ≤ count) (hc24 : count.toNat < 2 ^ 24)
    (hfs : s.store.failScript = [])
    (hnext : s.store.nextOID < 2 ^ 32)
    (hlook : storeLookup s.store.objects s.store.nextOID = none) :
    crud_write s fd (some b) count =
      ({ s with
          store := { s.store with objects := (s.store.nextOID, b.take count.toNat) :: s.store.objects, nextOID := s.store.nextOID + 1, exchCount := s.store.exchCount + 1, failScript := [] }
          crud_file_table := updateEntry (updateEntry s.crud_file_table fd.toNat (fun x => { x with object_id := s.store.nextOID, length := count.toNat })) fd.toNat (fun x => { x with position := count.toNat }) },
       count) := by
  have hneg : ¬(fd < 0 ∨ fd > (s.crud_file_table.length : Int) - 1) := by omega
  have hx := extract_create_crud s.store.nextOID CRUD_CREATE count.toNat 0 0 hnext
    (by decide) hc24 (by decide) (by decide)
  unfold crud_write
  rw [if_neg hneg, he, if_neg (by simp [hopen])]
  simp only [if_neg (by omega : ¬count < 1), if_pos hno]
  rw [storeExchange_CREATE s.store count.toNat (b.take count.toNat) hfs hc24 hnext hlook]
  simp only [hx, List.take_take, Nat.min_self]
  rfl

/-- C1 (amended): write-then-read round trip.  For every byte sequence B with
`1 <= len(B) < 2^24` (the wire length field is 24 bits, and spec section 4.1
makes lengths beyond the field width caller error), on a freshly opened file
whose entry has no backing object (so position = 0 and length = 0), against a
store whose exchanges all succeed, `crud_write(fd, B, len(B))` returns
`len(B)`, a `crud_seek(fd, 0)` then succeeds, and a `crud_read(fd, buf,
len(B))` returns `len(B)` and fills the caller's buffer with exactly B. -/
theorem C1_write_read_roundtrip (s : FSState) (fd : Int) (e : CrudFileAllocationType)
    (B : List Nat)
    (hfd : 0 ≤ fd) (hfd2 : fd ≤ (s.crud_file_table.length : Int) - 1)
    (he : s.crud_file_table.getD fd.toNat default = e) (hopen : e.isOpen = true)
    (hno : e.object_id = CRUD_NO_OBJECT)
    (hB : 1 ≤ B.length) (hB24 : B.length < 2 ^ 24)
    (hfs : s.store.failScript = [])
    (hnext : s.store.nextOID < 2 ^ 32)
    (hlook : storeLookup s.store.objects s.store.nextOID = none) :
    ∀ s1 r1, crud_write s fd (some B) (B.length : Int) = (s1, r1) →
      r1 = (B.length : Int) ∧
      ∀ s2 r2, crud_seek s1 fd 0 = (s2, r2) →
        r2 = 0 ∧
        ∀ s3 r3 buf,
          crud_read s2 fd (some (List.replicate B.length 0)) (B.length : Int) =
            (s3, r3, buf) →
          r3 = (B.length : Int) ∧ buf = B := by
  have hBc : ((B.length : Int)).toNat = B.length := by simp
  have hw := crud_write_create_spec s fd e B (B.length : Int) hfd hfd2 he hopen hno
    (by exact_mod_cast hB) (by rw [hBc]; exact hB24) hfs hnext hlook
  rw [hBc, List.take_length] at hw
  intro s1 r1 h1
  rw [hw] at h1
  injection h1 with h1a h1b
  subst h1a
  subst h1b
  refine ⟨rfl, ?_⟩
  have he1 : ({ s with
      store := { s.store with objects := (s.store.nextOID, B) :: s.store.objects, nextOID := s.store.nextOID + 1, exchCount := s.store.exchCount + 1, failScript := [] }
      crud_file_table := updateEntry (updateEntry s.crud_file_table fd.toNat (fun x => { x with object_id := s.store.nextOID, length := B.length })) fd.toNat (fun x => { x with position := B.length }) } : FSState).crud_file_table.getD fd.toNat default =
      ⟨e.filename, s.store.nextOID, B.length, B.length, e.isOpen⟩ := by
    have hfdn : fd.toNat < s.crud_file_table.length := by omega
    show (updateEntry (updateEntry s.crud_file_table fd.toNat _) fd.toNat _).getD
      fd.toNat default = _
    rw [getD_updateEntry_self _ _ _ (by rw [updateEntry_length]; exact hfdn),
      getD_updateEntry_self _ _ _ hfdn, he]
  have hlen1 : (updateEntry (updateEntry s.crud_file_table fd.toNat
      (fun x => { x with object_id := s.store.nextOID, length := B.length })) fd.toNat
      (fun x => { x with position := B.length })).length = s.crud_file_table.length := by
    rw [updateEntry_length, updateEntry_length]
  have hs := crud_seek_spec _ fd ⟨e.filename, s.store.nextOID, B.length, B.length, e.isOpen⟩
    0 hfd (by show fd ≤ ((updateEntry _ _ _).length : Int) - 1; rw [hlen1]; exact hfd2)
    he1 hopen (Nat.zero_le _)
  intro s2 r2 h2
  rw [hs] at h2
  injection h2 with h2a h2b
  subst h2a
  subst h2b
  refine ⟨rfl, ?_⟩
  have he2 : ({ { s with
      store := { s.store with objects := (s.store.nextOID, B) :: s.store.objects, nextOID := s.store.nextOID + 1, exchCount := s.store.exchCount + 1, failScript := [] }
      crud_file_table := updateEntry (updateEntry s.crud_file_table fd.toNat (fun x => { x with object_id := s.store.nextOID, length := B.length })) fd.toNat (fun x => { x with position := B.length }) } with
      crud_file_table := updateEntry (updateEntry (updateEntry s.crud_file_table fd.toNat (fun x => { x with object_id := s.store.nextOID, length := B.length })) fd.toNat (fun x => { x with position := B.length })) fd.toNat (fun x => { x with position := 0 }) } : FSState).crud_file_table.getD fd.toNat default =
      ⟨e.filename, s.store.nextOID, 0, B.length, e.isOpen⟩ := by
    have hfdn : fd.toNat < s.crud_file_table.length := by omega
    show (updateEntry (updateEntry (updateEntry s.crud_file_table fd.toNat _) fd.toNat _)
      fd.toNat _).getD fd.toNat default = _
    rw [getD_updateEntry_self _ _ _
        (by rw [updateEntry_length, updateEntry_length]; exact hfdn),
      getD_updateEntry_self _ _ _ (by rw [updateEntry_length]; exact hfdn),
      getD_updateEntry_self _ _ _ hfdn, he]
  have hr := crud_read_spec _ fd ⟨e.filename, s.store.nextOID, 0, B.length, e.isOpen⟩
    (List.replicate B.length 0) B (B.length : Int) hfd
    (by show fd ≤ ((updateEntry _ _ _).length : Int) - 1
        rw [updateEntry_length, hlen1]; exact hfd2)
    he2 hopen (by simp only []; omega) (by exact_mod_cast hB) rfl hnext hB24
    (by show storeLookup ((s.store.nextOID, B) :: s.store.objects) s.store.nextOID = some B
        simp [storeLookup])
  intro s3 r3 buf h3
  rw [hr] at h3
  injection h3 with h3a h3bc
  injection h3bc with h3b h3c
  subst h3b
  subst h3c
  constructor
  · rw [hBc]
    simp only []
    norm_num
  · rw [hBc]
    simp only [Nat.sub_zero, List.drop_zero, min_self, List.take_length]
    exact memcpyAt_all (List.replicate B.length 0) B (by simp)

/-- Witness for C1's amended theorem: writing [7,8,9] to a fresh open file,
seeking to 0 and reading 3 bytes returns [7,8,9]. -/
theorem C1_write_read_roundtrip_witness :
    (crud_write ⟨[⟨['a'], 0, 0, 0, true⟩], true, initStore⟩ 0 (some [7, 8, 9])
      (([7, 8, 9] : List Nat).length : Int)).2 = (([7, 8, 9] : List Nat).length : Int) ∧
    (crud_seek (crud_write ⟨[⟨['a'], 0, 0, 0, true⟩], true, initStore⟩ 0 (some [7, 8, 9])
      (([7, 8, 9] : List Nat).length : Int)).1 0 0).2 = 0 ∧
    (crud_read (crud_seek (crud_write ⟨[⟨['a'], 0, 0, 0, true⟩], true, initStore⟩ 0
        (some [7, 8, 9]) (([7, 8, 9] : List Nat).length : Int)).1 0 0).1 0
      (some (List.replicate ([7, 8, 9] : List Nat).length 0))
      (([7, 8, 9] : List Nat).length : Int)).2.1 = (([7, 8, 9] : List Nat).length : Int) ∧
    (crud_read (crud_seek (crud_write ⟨[⟨['a'], 0, 0, 0, true⟩], true, initStore⟩ 0
        (some [7, 8, 9]) (([7, 8, 9] : List Nat).length : Int)).1 0 0).1 0
      (some (List.replicate ([7, 8, 9] : List Nat).length 0))
      (([7, 8, 9] : List Nat).length : Int)).2.2 = [7, 8, 9] := by
  have h := C1_write_read_roundtrip ⟨[⟨['a'], 0, 0, 0, true⟩], true, initStore⟩ 0
    ⟨['a'], 0, 0, 0, true⟩ [7, 8, 9] (by decide) (by decide) rfl rfl rfl
    (by decide) (by decide) rfl (by decide) rfl
  obtain ⟨h1, h⟩ := h _ _ rfl
  obtain ⟨h2, h⟩ := h _ _ rfl
  obtain ⟨h3, h4⟩ := h _ _ _ rfl
  exact ⟨h1, h2, h3, h4⟩

theorem storeLookup_storeErase_none (l : List (Nat × List Nat)) (k j : Nat)
    (h : storeLookup l j = none) : storeLookup (storeErase l k) j = none := by
  induction l with
  | nil => rfl
  | cons p rest ih =>
    simp only [storeLookup] at h
    by_cases hp : p.1 = j
    · simp [hp] at h
    · simp only [hp, if_false, reduceIte] at h
      simp only [storeErase, List.filter]
      by_cases hk : p.1 != k
      · simp only [hk]
        simp only [storeLookup, hp, if_false, reduceIte]
        simpa [storeErase] using ih h
      · simp only [hk]
        simpa [storeErase] using ih h

theorem crud_write_grow_spec (s : FSState) (fd : Int) (e : CrudFileAllocationType)
    (b c : List Nat) (count : Int)
    (hfd : 0 ≤ fd) (hfd2 : fd ≤ (s.crud_file_table.length : Int) - 1)
    (he : s.crud_file_table.getD fd.toNat default = e) (hopen : e.isOpen = true)
    (hobj : ¬e.object_id = CRUD_NO_OBJECT)
    (hpl : e.position = e.length)
    (hcount : 1 ≤ count)
    (hb : count.toNat ≤ b.length)
    (h24 : count.toNat + e.position < 2 ^ 24)
    (hfs : s.store.failScript = [])
    (hoid : e.object_id < 2 ^ 32)
    (hc : storeLookup s.store.objects e.object_id = some c)
    (hclen : c.length = e.length)
    (hnext : s.store.nextOID < 2 ^ 32)
    (hlookN : storeLookup s.store.objects s.store.nextOID = none) :
    crud_write s fd (some b) count =
      ({ s with
          store := { s.store with objects := (s.store.nextOID, c ++ b.take count.toNat) :: storeErase s.store.objects e.object_id, nextOID := s.store.nextOID + 1, exchCount := s.store.exchCount + 1 + 1 + 1, failScript := [] }
          crud_file_table := updateEntry (updateEntry (updateEntry (updateEntry s.crud_file_table fd.toNat (fun x => { x with object_id := e.object_id, length := c.length })) fd.toNat (fun x => { x with object_id := e.object_id, length := 0 })) fd.toNat (fun x => { x with object_id := s.store.nextOID, length := count.toNat + e.position })) fd.toNat (fun x => { x with position := x.position + count.toNat }) },
       count) := by
  have hcn : 1 ≤ count.toNat := by omega
  have hneg : ¬(fd < 0 ∨ fd > (s.crud_file_table.length : Int) - 1) := by omega
  have hfdn : fd.toNat < s.crud_file_table.length := by omega
  have hclen24 : c.length < 2 ^ 24 := by omega
  have hxr := extract_create_crud e.object_id CRUD_READ c.length 0 0 hoid (by decide)
    hclen24 (by decide) (by decide)
  have hxd := extract_create_crud e.object_id CRUD_DELETE 0 0 0 hoid (by decide)
    (by decide) (by decide) (by decide)
  have hxc := extract_create_crud s.store.nextOID CRUD_CREATE (count.toNat + e.position)
    0 0 hnext (by decide) h24 (by decide) (by decide)
  unfold crud_write
  rw [if_neg hneg, he, if_neg (by simp [hopen])]
  simp only [if_neg (by omega : ¬count < 1), if_neg hobj,
    if_neg (by omega : ¬e.length ≥ count.toNat + e.position)]
  rw [storeExchange_READ s.store e.object_id (count.toNat + e.position) 0 c hfs hoid
    h24 (by decide) hc]
  simp only [hxr]
  rw [getD_updateEntry_self s.crud_file_table fd.toNat _ hfdn, he]
  simp only []
  rw [storeExchange_DELETE { objects := s.store.objects, nextOID := s.store.nextOID, initCount := s.store.initCount, exchCount := s.store.exchCount + 1, failCount := s.store.failCount, failScript := [] } e.object_id c rfl hoid hc]
  simp only [hxd]
  rw [storeExchange_CREATE { objects := storeErase s.store.objects e.object_id, nextOID := s.store.nextOID, initCount := s.store.initCount, exchCount := s.store.exchCount + 1 + 1, failCount := s.store.failCount, failScript := [] } (count.toNat + e.position)
    (memcpyAt (memcpyAt (List.replicate (count.toNat + e.position) 0) 0 c) e.position
      (b.take count.toNat))
    rfl h24 hnext (storeLookup_storeErase_none _ _ _ hlookN)]
  simp only [hxc]
  have hinner : memcpyAt (List.replicate (count.toNat + e.position) 0) 0 c =
      c ++ (List.replicate (count.toNat + e.position) 0).drop c.length := memcpyAt_front _ _
  have hRlen : ((List.replicate (count.toNat + e.position) 0).drop c.length).length =
      count.toNat := by
    simp only [List.length_drop, List.length_replicate]
    omega
  have houter : memcpyAt (memcpyAt (List.replicate (count.toNat + e.position) 0) 0 c)
      e.position (b.take count.toNat) = c ++ b.take count.toNat := by
    rw [hinner]
    unfold memcpyAt
    have htake : (c ++ (List.replicate (count.toNat + e.position) 0).drop c.length).take
        e.position = c := by
      rw [show e.position = c.length from by omega]
      exact List.take_left c _
    have hdrop : (c ++ (List.replicate (count.toNat + e.position) 0).drop c.length).drop
        (e.position + (b.take count.toNat).length) = [] := by
      refine List.drop_eq_nil_of_le ?_
      simp only [List.length_append, hRlen, List.length_take]
      omega
    rw [htake, hdrop, List.append_nil]
  rw [houter]
  have hfinal : (c ++ b.take count.toNat).take (count.toNat + e.position) =
      c ++ b.take count.toNat := by
    refine List.take_of_length_le ?_
    simp only [List.length_append, List.length_take]
    omega
  rw [hfinal]
  rfl

theorem grow_trunc_read_exch : storeExchange ⟨[(1, [7])], 2, 0, 0, 0, []⟩
    (create_crud_request 1 CRUD_READ 33554432 0 0) [] =
    (⟨[(1, [7])], 2, 0, 1, 0, []⟩, create_crud_request 1 CRUD_READ 1 0 0, [7]) := by decide

theorem grow_trunc_delete_exch : storeExchange ⟨[(1, [7])], 2, 0, 1, 0, []⟩
    (create_crud_request 1 CRUD_DELETE 0 0 0) [] =
    (⟨[], 2, 0, 2, 0, []⟩, create_crud_request 1 CRUD_DELETE 0 0 0, []) := by decide

/-- The CREATE exchange of the truncating grow write: the requested length
2^25 aliases into the opcode bits and the 24-bit length field reads 0, so the
store creates an empty object and reports success, whatever payload is sent. -/
theorem grow_trunc_create_exch (p : List Nat) : storeExchange ⟨[], 2, 0, 2, 0, []⟩
    (create_crud_request 0 CRUD_CREATE 33554432 0 0) p =
    (⟨[(2, [])], 3, 0, 3, 0, []⟩, create_crud_request 2 CRUD_CREATE 0 0 0, []) := by
  have h4 : extract_crud_response (create_crud_request 0 2 33554432 0 0) =
      ⟨0, 2, 0, 0, 0⟩ := by decide
  simp [storeExchange, h4, storeLookup, CRUD_INIT, CRUD_FORMAT, CRUD_CREATE,
    CRUD_PRIORITY_OBJECT]

/-- A grow write of `count = 2^25 - 1` bytes on an entry with length 1 and
position 1: every exchange succeeds, the call returns `count`, but the entry
ends with length 0, position 2^25, and an empty backing object. -/
theorem crud_write_grow_trunc_eq (p : List Nat) :
    crud_write ⟨[⟨['a'], 1, 1, 1, true⟩], true, ⟨[(1, [7])], 2, 0, 0, 0, []⟩⟩ 0
      (some p) 33554431 =
    (⟨[⟨['a'], 2, 33554432, 0, true⟩], true, ⟨[(2, [])], 3, 0, 3, 0, []⟩⟩, 33554431) := by
  have h2 : extract_crud_response (create_crud_request 1 CRUD_READ 1 0 0) =
      ⟨1, 3, 1, 0, 0⟩ := by decide
  have h3 : extract_crud_response (create_crud_request 1 CRUD_DELETE 0 0 0) =
      ⟨1, 5, 0, 0, 0⟩ := by decide
  have h5 : extract_crud_response (create_crud_request 2 CRUD_CREATE 0 0 0) =
      ⟨2, 2, 0, 0, 0⟩ := by decide
  unfold crud_write
  rw [if_neg (by decide)]
  simp only [Int.toNat_ofNat, Int.toNat_zero, List.getD_cons_zero]
  rw [if_neg (by decide)]
  rw [if_neg (by decide)]
  rw [if_neg (by decide)]
  rw [if_neg (by decide)]
  rw [show Int.toNat 33554431 + 1 = 33554432 from by decide]
  rw [grow_trunc_read_exch]
  simp only [h2, updateEntry, List.getD_cons_zero]
  rw [if_neg (by decide)]
  rw [grow_trunc_delete_exch]
  simp only [h3, updateEntry, List.getD_cons_zero]
  rw [if_neg (by decide)]
  rw [grow_trunc_create_exch]
  simp only [h5, updateEntry, List.getD_cons_zero]
  rw [if_neg (by decide)]
  decide

/-- C5 counterexample: `crud_write` never validates `count` against the 24-bit
wire length field.  On an open file with backing object [7] (length 1,
position 1 = length), a write of `count = 2^25 - 1` bytes takes the grow path:
`newLength = 2^25` truncates to 0 in the CREATE request's length field (the
alias lands in the opcode bits, which survive), so the store successfully
creates an EMPTY object; every exchange succeeds (failCount stays 0), the call
returns `count`, yet the entry's length drops from 1 to 0 instead of growing
by `count`, and the old content byte is gone. -/
theorem C5_counterexample :
    (crud_write ⟨[⟨['a'], 1, 1, 1, true⟩], true, ⟨[(1, [7])], 2, 0, 0, 0, []⟩⟩ 0
      (some (List.replicate 33554431 5)) 33554431).2 = 33554431 ∧
    (crud_write ⟨[⟨['a'], 1, 1, 1, true⟩], true, ⟨[(1, [7])], 2, 0, 0, 0, []⟩⟩ 0
      (some (List.replicate 33554431 5)) 33554431).1.store.failCount = 0 ∧
    ((crud_write ⟨[⟨['a'], 1, 1, 1, true⟩], true, ⟨[(1, [7])], 2, 0, 0, 0, []⟩⟩ 0
      (some (List.replicate 33554431 5)) 33554431).1.crud_file_table.getD 0
        default).length = 0 ∧
    storeLookup (crud_write ⟨[⟨['a'], 1, 1, 1, true⟩], true, ⟨[(1, [7])], 2, 0, 0, 0, []⟩⟩ 0
      (some (List.replicate 33554431 5)) 33554431).1.store.objects 2 = some [] := by
  rw [crud_write_grow_trunc_eq]
  refine ⟨rfl, rfl, ?_, ?_⟩ <;> decide

/-- C5 (amended): the growing write behaves as claimed PROVIDED the new length
`count + position` fits the 24-bit wire length field (the code never checks
this; see the counterexample).  Under that bound, with the entry's backing
object `c` present in the store (its length matching the entry's), position at
end (`position = length`), and every exchange succeeding, `crud_write` returns
`count`, the entry's length grows by exactly `count.toNat`, the position
advances by `count.toNat`, the new backing object is `c ++ b.take count.toNat`
(so every byte below the old position is unchanged and `b[0:count]` sits at
`[position, position+count)`), and no exchange failed. -/
theorem C5_growing_write (s : FSState) (fd : Int) (e : CrudFileAllocationType)
    (b c : List Nat) (count : Int)
    (hfd : 0 ≤ fd) (hfd2 : fd ≤ (s.crud_file_table.length : Int) - 1)
    (he : s.crud_file_table.getD fd.toNat default = e) (hopen : e.isOpen = true)
    (hobj : ¬e.object_id = CRUD_NO_OBJECT)
    (hpl : e.position = e.length)
    (hcount : 1 ≤ count)
    (hb : count.toNat ≤ b.length)
    (h24 : count.toNat + e.position < 2 ^ 24)
    (hfs : s.store.failScript = [])
    (hoid : e.object_id < 2 ^ 32)
    (hc : storeLookup s.store.objects e.object_id = some c)
    (hclen : c.length = e.length)
    (hnext : s.store.nextOID < 2 ^ 32)
    (hlookN : storeLookup s.store.objects s.store.nextOID = none) :
    ∀ s' r, crud_write s fd (some b) count = (s', r) →
      r = count ∧
      s'.crud_file_table.getD fd.toNat default =
        ⟨e.filename, s.store.nextOID, e.position + count.toNat,
         count.toNat + e.position, e.isOpen⟩ ∧
      (s'.crud_file_table.getD fd.toNat default).length = e.length + count.toNat ∧
      storeLookup s'.store.objects s.store.nextOID = some (c ++ b.take count.toNat) ∧
      (c ++ b.take count.toNat).take e.position = c ∧
      (c ++ b.take count.toNat).drop e.position = b.take count.toNat ∧
      s'.store.failCount = s.store.failCount := by
  intro s' r h
  rw [crud_write_grow_spec s fd e b c count hfd hfd2 he hopen hobj hpl hcount hb h24
    hfs hoid hc hclen hnext hlookN] at h
  injection h with ha hb2
  subst ha
  subst hb2
  have hfdn : fd.toNat < s.crud_file_table.length := by omega
  have hgd : (updateEntry (updateEntry (updateEntry (updateEntry s.crud_file_table
      fd.toNat (fun x => { x with object_id := e.object_id, length := c.length }))
      fd.toNat (fun x => { x with object_id := e.object_id, length := 0 }))
      fd.toNat (fun x => { x with object_id := s.store.nextOID, length := count.toNat + e.position }))
      fd.toNat (fun x => { x with position := x.position + count.toNat })).getD
      fd.toNat default =
      ⟨e.filename, s.store.nextOID, e.position + count.toNat,
       count.toNat + e.position, e.isOpen⟩ := by
    rw [getD_updateEntry_self _ _ _
        (by rw [updateEntry_length, updateEntry_length, updateEntry_length]; exact hfdn),
      getD_updateEntry_self _ _ _
        (by rw [updateEntry_length, updateEntry_length]; exact hfdn),
      getD_updateEntry_self _ _ _ (by rw [updateEntry_length]; exact hfdn),
      getD_updateEntry_self _ _ _ hfdn, he]
  refine ⟨rfl, hgd, ?_, ?_, ?_, ?_, rfl⟩
  · rw [show (({ s with
        store := { s.store with objects := (s.store.nextOID, c ++ b.take count.toNat) :: storeErase s.store.objects e.object_id, nextOID := s.store.nextOID + 1, exchCount := s.store.exchCount + 1 + 1 + 1, failScript := [] }
        crud_file_table := updateEntry (updateEntry (updateEntry (updateEntry s.crud_file_table fd.toNat (fun x => { x with object_id := e.object_id, length := c.length })) fd.toNat (fun x => { x with object_id := e.object_id, length := 0 })) fd.toNat (fun x => { x with object_id := s.store.nextOID, length := count.toNat + e.position })) fd.toNat (fun x => { x with position := x.position + count.toNat }) } : FSState).crud_file_table.getD fd.toNat default)
      = ⟨e.filename, s.store.nextOID, e.position + count.toNat,
         count.toNat + e.position, e.isOpen⟩ from hgd]
    simp only []
    omega
  · show storeLookup ((s.store.nextOID, c ++ b.take count.toNat) ::
      storeErase s.store.objects e.object_id) s.store.nextOID = _
    simp [storeLookup]
  · rw [show e.position = c.length from by omega]
    exact List.take_left c _
  · rw [show e.position = c.length from by omega]
    exact List.drop_left c _

/-- Witness for C5's amended theorem: growing a length-1 file (object [7],
position 1) by the two bytes [9, 8] returns 2, grows the length to 3, moves
the position to 3, and leaves object content [7, 9, 8]. -/
theorem C5_growing_write_witness :
    (crud_write ⟨[⟨['a'], 1, 1, 1, true⟩], true, ⟨[(1, [7])], 2, 0, 0, 0, []⟩⟩ 0
      (some [9, 8]) 2).2 = 2 ∧
    ((crud_write ⟨[⟨['a'], 1, 1, 1, true⟩], true, ⟨[(1, [7])], 2, 0, 0, 0, []⟩⟩ 0
      (some [9, 8]) 2).1.crud_file_table.getD 0 default).length = 3 ∧
    ((crud_write ⟨[⟨['a'], 1, 1, 1, true⟩], true, ⟨[(1, [7])], 2, 0, 0, 0, []⟩⟩ 0
      (some [9, 8]) 2).1.crud_file_table.getD 0 default).position = 3 ∧
    storeLookup (crud_write ⟨[⟨['a'], 1, 1, 1, true⟩], true, ⟨[(1, [7])], 2, 0, 0, 0, []⟩⟩ 0
      (some [9, 8]) 2).1.store.objects 2 = some [7, 9, 8] := by
  have h := C5_growing_write ⟨[⟨['a'], 1, 1, 1, true⟩], true, ⟨[(1, [7])], 2, 0, 0, 0, []⟩⟩ 0
    ⟨['a'], 1, 1, 1, true⟩ [9, 8] [7] 2 (by decide) (by decide) rfl rfl (by decide) rfl
    (by decide) (by decide) (by decide) rfl (by decide) rfl rfl (by decide) rfl
  obtain ⟨h1, h2, h3, h4, h5, h6, h7⟩ := h _ _ rfl
  exact ⟨h1, congrArg CrudFileAllocationType.length h2,
    congrArg CrudFileAllocationType.position h2, h4⟩

/-- The CREATE exchange of the truncating fresh-file write: the requested
length 2^25 reads as 0 in the 24-bit length field, so the store creates an
empty object and reports success, whatever payload is sent. -/
theorem create_trunc_exch (p : List Nat) : storeExchange ⟨[], 1, 0, 0, 0, []⟩
    (create_crud_request 0 CRUD_CREATE 33554432 0 0) p =
    (⟨[(1, [])], 2, 0, 1, 0, []⟩, create_crud_request 1 CRUD_CREATE 0 0 0, []) := by
  have h4 : extract_crud_response (create_crud_request 0 2 33554432 0 0) =
      ⟨0, 2, 0, 0, 0⟩ := by decide
  simp [storeExchange, h4, storeLookup, CRUD_INIT, CRUD_FORMAT, CRUD_CREATE,
    CRUD_PRIORITY_OBJECT]

/-- Writing `count = 2^25` bytes to a fresh open file: the CREATE succeeds
(with a truncated length field of 0), the call returns `count`, but the entry
ends with length 0 and position 2^25, and the backing object is empty. -/
theorem crud_write_create_trunc_eq (p : List Nat) :
    crud_write ⟨[⟨['a'], 0, 0, 0, true⟩], true, ⟨[], 1, 0, 0, 0, []⟩⟩ 0
      (some p) 33554432 =
    (⟨[⟨['a'], 1, 33554432, 0, true⟩], true, ⟨[(1, [])], 2, 0, 1, 0, []⟩⟩, 33554432) := by
  have h5x : extract_crud_response (create_crud_request 1 CRUD_CREATE 0 0 0) =
      ⟨1, 2, 0, 0, 0⟩ := by decide
  unfold crud_write
  rw [if_neg (by decide)]
  simp only [Int.toNat_ofNat, Int.toNat_zero, List.getD_cons_zero]
  rw [if_neg (by decide)]
  rw [if_neg (by decide)]
  rw [if_pos (by decide)]
  rw [show Int.toNat 33554432 = 33554432 from by decide]
  rw [create_trunc_exch]
  simp only [h5x, updateEntry, List.getD_cons_zero]
  rw [if_neg (by decide)]

/-- C1 counterexample: the round-trip fails for `B = replicate 2^25 5` because
`crud_write` never validates `count` against the 24-bit wire length field.  On
a fresh open file the CREATE request's length field reads 2^25 mod 2^24 = 0,
the store successfully creates an EMPTY object, the write reports all 2^25
bytes written (failCount 0), a seek to 0 succeeds, and the subsequent read of
`len(B)` bytes returns 0 bytes, not `len(B)`. -/
theorem C1_counterexample :
    (crud_write ⟨[⟨['a'], 0, 0, 0, true⟩], true, ⟨[], 1, 0, 0, 0, []⟩⟩ 0
      (some (List.replicate 33554432 5)) 33554432).2 = 33554432 ∧
    (crud_write ⟨[⟨['a'], 0, 0, 0, true⟩], true, ⟨[], 1, 0, 0, 0, []⟩⟩ 0
      (some (List.replicate 33554432 5)) 33554432).1.store.failCount = 0 ∧
    (crud_seek (crud_write ⟨[⟨['a'], 0, 0, 0, true⟩], true, ⟨[], 1, 0, 0, 0, []⟩⟩ 0
      (some (List.replicate 33554432 5)) 33554432).1 0 0).2 = 0 ∧
    (crud_read (crud_seek (crud_write ⟨[⟨['a'], 0, 0, 0, true⟩], true,
        ⟨[], 1, 0, 0, 0, []⟩⟩ 0 (some (List.replicate 33554432 5)) 33554432).1 0 0).1 0
      (some (List.replicate 33554432 0)) 33554432).2.1 = 0 ∧
    (crud_read (crud_seek (crud_write ⟨[⟨['a'], 0, 0, 0, true⟩], true,
        ⟨[], 1, 0, 0, 0, []⟩⟩ 0 (some (List.replicate 33554432 5)) 33554432).1 0 0).1 0
      (some (List.replicate 33554432 0)) 33554432).2.1 ≠ 33554432 := by
  rw [crud_write_create_trunc_eq]
  have hr := crud_read_zero (crud_seek ((⟨[⟨['a'], 1, 33554432, 0, true⟩], true,
      ⟨[(1, [])], 2, 0, 1, 0, []⟩⟩, (33554432 : Int)) : FSState × Int).1 0 0).1 0
    ⟨['a'], 1, 0, 0, true⟩ (List.replicate 33554432 0) 33554432
    (by decide) (by decide) (by decide) rfl (Or.inl rfl)
  rw [hr]
  refine ⟨rfl, rfl, by decide, rfl, by decide⟩

theorem storeLookup_storeReplace_self (l : List (Nat × List Nat)) (k : Nat)
    (c0 c : List Nat) (h : storeLookup l k = some c0) :
    storeLookup (storeReplace l k c) k = some c := by
  induction l with
  | nil => simp [storeLookup] at h
  | cons p rest ih =>
    by_cases hp : p.1 = k
    · simp [storeReplace, hp, storeLookup]
    · simp only [storeLookup, hp, if_false, reduceIte] at h
      simp [storeReplace, hp, storeLookup, ih h]

theorem storeLookup_storeReplace_ne (l : List (Nat × List Nat)) (k j : Nat)
    (c : List Nat) (h : j ≠ k) :
    storeLookup (storeReplace l k c) j = storeLookup l j := by
  induction l with
  | nil => rfl
  | cons p rest ih =>
    by_cases hp : p.1 = k
    · subst hp
      have hj : ¬(p.1 = j) := fun hh => h hh.symm
      simp [storeReplace, storeLookup, hj]
    · simp [storeReplace, hp, storeLookup, ih]

theorem storeLookup_storeErase_self (l : List (Nat × List Nat)) (k : Nat) :
    storeLookup (storeErase l k) k = none := by
  induction l with
  | nil => rfl
  | cons p rest ih =>
    by_cases hp : p.1 = k
    · have hf : (p.1 != k) = false := by simp [hp]
      simpa [storeErase, List.filter_cons, hf] using ih
    · have ht : (p.1 != k) = true := by simp [hp]
      simpa [storeErase, List.filter_cons, ht, storeLookup, hp] using ih

theorem storeLookup_storeErase_ne (l : List (Nat × List Nat)) (k j : Nat)
    (h : j ≠ k) : storeLookup (storeErase l k) j = storeLookup l j := by
  induction l with
  | nil => rfl
  | cons p rest ih =>
    by_cases hp : p.1 = k
    · subst hp
      have hf : (p.1 != p.1) = false := by simp
      have hj : ¬(p.1 = j) := fun hh => h hh.symm
      simp only [storeErase, List.filter_cons, hf] at ih ⊢
      simp [storeLookup, hj, ih]
    · have ht : (p.1 != k) = true := by simp [hp]
      simp only [storeErase, List.filter_cons, ht] at ih ⊢
      simp [storeLookup, ih]

theorem updateEntry_updateEntry (t : List CrudFileAllocationType) (i : Nat)
    (f g : CrudFileAllocationType → CrudFileAllocationType) :
    updateEntry (updateEntry t i f) i g = updateEntry t i (fun e => g (f e)) := by
  induction t generalizing i with
  | nil => rfl
  | cons e r ih =>
    cases i with
    | zero => rfl
    | succ n => simp [updateEntry, ih]

theorem entryWF_mono (st st' : Store) (e : CrudFileAllocationType)
    (ho : st'.objects = st.objects) (hn : st.nextOID ≤ st'.nextOID)
    (h : entryWF st e) : entryWF st' e := by
  obtain ⟨h1, h2, h3, h4⟩ := h
  exact ⟨h1, h2, by omega, by rw [ho]; exact h4⟩

theorem tableWF_updateEntry (st st' : Store) (t : List CrudFileAllocationType)
    (i : Nat) (f : CrudFileAllocationType → CrudFileAllocationType)
    (h : tableWF st t)
    (hother : ∀ e, entryWF st e → entryWF st' e)
    (hnew : entryWF st' (f (t.getD i default))) :
    tableWF st' (updateEntry t i f) := by
  intro j hj
  rw [updateEntry_length] at hj
  by_cases hji : j = i
  · subst hji
    rw [getD_updateEntry_self _ _ _ hj]
    exact hnew
  · rw [getD_updateEntry_ne _ _ _ _ hji]
    exact hother _ (h j hj)

theorem tableWF_congr (st st' : Store) (t : List CrudFileAllocationType)
    (ho : st'.objects = st.objects) (hn : st.nextOID ≤ st'.nextOID)
    (h : tableWF st t) : tableWF st' t :=
  fun i hi => entryWF_mono st st' _ ho hn (h i hi)

theorem crud_write_update_spec (s : FSState) (fd : Int) (e : CrudFileAllocationType)
    (b c : List Nat) (count : Int)
    (hfd : 0 ≤ fd) (hfd2 : fd ≤ (s.crud_file_table.length : Int) - 1)
    (he : s.crud_file_table.getD fd.toNat default = e) (hopen : e.isOpen = true)
    (hobj : ¬e.object_id = CRUD_NO_OBJECT)
    (hcase : e.length ≥ count.toNat + e.position)
    (hcount : 1 ≤ count)
    (hfs : s.store.failScript = [])
    (hoid : e.object_id < 2 ^ 32)
    (hc : storeLookup s.store.objects e.object_id = some c)
    (hclen24 : c.length < 2 ^ 24) :
    crud_write s fd (some b) count =
      ({ s with
          store := { s.store with objects := storeReplace s.store.objects e.object_id ((memcpyAt c e.position (b.take count.toNat)).take c.length), exchCount := s.store.exchCount + 1 + 1, failScript := [] }
          crud_file_table := updateEntry (updateEntry (updateEntry s.crud_file_table fd.toNat (fun x => { x with object_id := e.object_id, length := c.length })) fd.toNat (fun x => { x with object_id := e.object_id, length := c.length })) fd.toNat (fun x => { x with position := x.position + count.toNat }) },
       count) := by
  have hneg : ¬(fd < 0 ∨ fd > (s.crud_file_table.length : Int) - 1) := by omega
  have hfdn : fd.toNat < s.crud_file_table.length := by omega
  have hxr := extract_create_crud e.object_id CRUD_READ c.length 0 0 hoid (by decide)
    hclen24 (by decide) (by decide)
  have hxu := extract_create_crud e.object_id CRUD_UPDATE c.length 0 0 hoid (by decide)
    hclen24 (by decide) (by decide)
  unfold crud_write
  rw [if_neg hneg, he, if_neg (by simp [hopen])]
  simp only [if_neg (by omega : ¬count < 1), if_neg hobj, if_pos hcase]
  rw [storeExchange_READ s.store e.object_id CRUD_MAX_OBJECT_SIZE 0 c hfs hoid
    (by decide) (by decide) hc]
  simp only [hxr]
  rw [getD_updateEntry_self s.crud_file_table fd.toNat _ hfdn, he]
  simp only []
  rw [storeExchange_UPDATE { objects := s.store.objects, nextOID := s.store.nextOID, initCount := s.store.initCount, exchCount := s.store.exchCount + 1, failCount := s.store.failCount, failScript := [] } e.object_id c.length (memcpyAt c e.position (b.take count.toNat)) c rfl hoid hclen24 hc]
  simp only [hxu]
  rfl

theorem crud_write_grow_gen_spec (s : FSState) (fd : Int) (e : CrudFileAllocationType)
    (b c : List Nat) (count : Int)
    (hfd : 0 ≤ fd) (hfd2 : fd ≤ (s.crud_file_table.length : Int) - 1)
    (he : s.crud_file_table.getD fd.toNat default = e) (hopen : e.isOpen = true)
    (hobj : ¬e.object_id = CRUD_NO_OBJECT)
    (hgrow : ¬e.length ≥ count.toNat + e.position)
    (hcount : 1 ≤ count)
    (h24 : count.toNat + e.position < 2 ^ 24)
    (hfs : s.store.failScript = [])
    (hoid : e.object_id < 2 ^ 32)
    (hc : storeLookup s.store.objects e.object_id = some c)
    (hclen24 : c.length < 2 ^ 24)
    (hnext : s.store.nextOID < 2 ^ 32)
    (hlookN : storeLookup (storeErase s.store.objects e.object_id) s.store.nextOID = none) :
    crud_write s fd (some b) count =
      ({ s with
          store := { s.store with objects := (s.store.nextOID, (memcpyAt (memcpyAt (List.replicate (count.toNat + e.position) 0) 0 c) e.position (b.take count.toNat)).take (count.toNat + e.position)) :: storeErase s.store.objects e.object_id, nextOID := s.store.nextOID + 1, exchCount := s.store.exchCount + 1 + 1 + 1, failScript := [] }
          crud_file_table := updateEntry (updateEntry (updateEntry (updateEntry s.crud_file_table fd.toNat (fun x => { x with object_id := e.object_id, length := c.length })) fd.toNat (fun x => { x with object_id := e.object_id, length := 0 })) fd.toNat (fun x => { x with object_id := s.store.nextOID, length := count.toNat + e.position })) fd.toNat (fun x => { x with position := x.position + count.toNat }) },
       count) := by
  have hneg : ¬(fd < 0 ∨ fd > (s.crud_file_table.length : Int) - 1) := by omega
  have hfdn : fd.toNat < s.crud_file_table.length := by omega
  have hxr := extract_create_crud e.object_id CRUD_READ c.length 0 0 hoid
    (by decide) hclen24 (by decide) (by decide)
  have hxd := extract_create_crud e.object_id CRUD_DELETE 0 0 0 hoid (by decide)
    (by decide) (by decide) (by decide)
  have hxc := extract_create_crud s.store.nextOID CRUD_CREATE (count.toNat + e.position)
    0 0 hnext (by decide) h24 (by decide) (by decide)
  unfold crud_write
  rw [if_neg hneg, he, if_neg (by simp [hopen])]
  simp only [if_neg (by omega : ¬count < 1), if_neg hobj, if_neg hgrow]
  rw [storeExchange_READ s.store e.object_id (count.toNat + e.position) 0 c hfs hoid
    h24 (by decide) hc]
  simp only [hxr]
  rw [getD_updateEntry_self s.crud_file_table fd.toNat _ hfdn, he]
  simp only []
  rw [storeExchange_DELETE { objects := s.store.objects, nextOID := s.store.nextOID, initCount := s.store.initCount, exchCount := s.store.exchCount + 1, failCount := s.store.failCount, failScript := [] } e.object_id c rfl hoid hc]
  simp only [hxd]
  rw [storeExchange_CREATE { objects := storeErase s.store.objects e.object_id, nextOID := s.store.nextOID, initCount := s.store.initCount, exchCount := s.store.exchCount + 1 + 1, failCount := s.store.failCount, failScript := [] } (count.toNat + e.position)
    (memcpyAt (memcpyAt (List.replicate (count.toNat + e.position) 0) 0 c) e.position
      (b.take count.toNat))
    rfl h24 hnext hlookN]
  simp only [hxc]
  rfl

theorem lastMatchIdx_lt_length (path : List Char) (t : List CrudFileAllocationType) :
    ∀ i, lastMatchIdx t path = some i → i < t.length := by
  induction t with
  | nil => intro i h; simp [lastMatchIdx] at h
  | cons e r ih =>
    intro i h
    simp only [lastMatchIdx] at h
    cases hr : lastMatchIdx r path with
    | some j =>
      rw [hr] at h
      have := ih j hr
      simp only [Option.some.injEq] at h
      simp only [List.length_cons]
      omega
    | none =>
      rw [hr] at h
      by_cases hc : e.filename ≠ [] ∧ path.isPrefixOf e.filename
      · rw [if_pos hc] at h
        simp only [Option.some.injEq] at h
        simp only [List.length_cons]
        omega
      · rw [if_neg hc] at h
        exact absurd h (by simp)

theorem firstFreeIdx_lt_length (t : List CrudFileAllocationType) :
    ∀ i, firstFreeIdx t = some i → i < t.length := by
  induction t with
  | nil => intro i h; simp [firstFreeIdx] at h
  | cons e r ih =>
    intro i h
    simp only [firstFreeIdx] at h
    by_cases hc : e.isOpen = false ∧ e.filename = []
    · rw [if_pos hc] at h
      simp only [Option.some.injEq] at h
      simp only [List.length_cons]
      omega
    · rw [if_neg hc] at h
      cases hr : firstFreeIdx r with
      | some j =>
        rw [hr] at h
        have := ih j hr
        simp at h
        simp only [List.length_cons]
        omega
      | none =>
        rw [hr] at h
        exact absurd h (by simp)

theorem ensureInit_eq_false (s : FSState) (hinit : s.INITIALIZED = false)
    (hfs : s.store.failScript = []) :
    ensureInit s =
      ({ s with store := { s.store with exchCount := s.store.exchCount + 1, failScript := [], initCount := s.store.initCount + 1 }, INITIALIZED := true }, true) := by
  have hres0 : extract_crud_response (create_crud_request 0 CRUD_INIT 0 0 0) =
      ⟨0, CRUD_INIT, 0, 0, 0⟩ := by decide
  simp [ensureInit, hinit, hfs, storeExchange_INIT, hres0]

theorem crud_open_uninit (s : FSState) (path : List Char)
    (hinit : s.INITIALIZED = false) (hfs : s.store.failScript = []) :
    crud_open s path = crud_open ({ s with store := { s.store with exchCount := s.store.exchCount + 1, failScript := [], initCount := s.store.initCount + 1 }, INITIALIZED := true }) path := by
  simp only [crud_open]
  rw [ensureInit_eq_false s hinit hfs]
  simp [ensureInit]

theorem crud_open_WF_aux (s : FSState) (path : List Char) (hinit : s.INITIALIZED = true)
    (h : stateWF s) : stateWF (crud_open s path).1 := by
  obtain ⟨ht, hs⟩ := h
  cases hm : lastMatchIdx s.crud_file_table path with
  | some i =>
    rw [crud_open_reuse s path i hinit hm]
    refine ⟨?_, hs⟩
    refine tableWF_updateEntry s.store s.store _ i _ ht (fun e he => he) ?_
    have hi := lastMatchIdx_lt_length path s.crud_file_table i hm
    obtain ⟨p1, p2, p3, p4⟩ := ht i hi
    exact ⟨Nat.zero_le _, p2, p3, p4⟩
  | none =>
    cases hf : firstFreeIdx s.crud_file_table with
    | some i =>
      rw [crud_open_claim s path i hinit hm hf]
      refine ⟨?_, hs⟩
      refine tableWF_updateEntry s.store s.store _ i _ ht (fun e he => he) ?_
      refine ⟨Nat.le_refl 0, show CRUD_NO_OBJECT < 2 ^ 32 from by decide, hs.1, ?_⟩
      intro c hc
      have hc' : storeLookup s.store.objects CRUD_NO_OBJECT = some c := hc
      rw [hs.2.1] at hc'
      exact absurd hc' (by simp)
    | none =>
      rw [crud_open_full_initialized s path hinit hm hf]
      exact ⟨ht, hs⟩

theorem crud_open_WF (s : FSState) (path : List Char) (h : stateWF s) :
    stateWF (crud_open s path).1 := by
  cases hinit : s.INITIALIZED with
  | true => exact crud_open_WF_aux s path hinit h
  | false =>
    obtain ⟨ht, hn1, hn0, hcont, hfs⟩ := And.intro h.1 h.2
    rw [crud_open_uninit s path hinit hfs]
    refine crud_open_WF_aux _ path rfl ⟨?_, hn1, hn0, hcont, rfl⟩
    exact tableWF_congr s.store _ _ rfl (Nat.le_refl _) ht

theorem crud_close_WF (s : FSState) (fd : Int) (h : stateWF s) :
    stateWF (crud_close s fd).1 := by
  obtain ⟨ht, hs⟩ := h
  unfold crud_close
  by_cases h1 : fd < 0 ∨ fd > (s.crud_file_table.length : Int) - 1
  · rw [if_pos h1]
    exact ⟨ht, hs⟩
  · rw [if_neg h1]
    simp only []
    by_cases h2 : (s.crud_file_table.getD fd.toNat default).isOpen = false
    · rw [if_pos h2]
      exact ⟨ht, hs⟩
    · rw [if_neg h2]
      refine ⟨?_, hs⟩
      refine tableWF_updateEntry s.store s.store _ _ _ ht (fun e he => he) ?_
      have hfdn : fd.toNat < s.crud_file_table.length := by omega
      obtain ⟨p1, p2, p3, p4⟩ := ht fd.toNat hfdn
      exact ⟨p1, p2, p3, p4⟩

theorem crud_seek_WF (s : FSState) (fd : Int) (loc : Nat) (h : stateWF s) :
    stateWF (crud_seek s fd loc).1 := by
  obtain ⟨ht, hs⟩ := h
  unfold crud_seek
  by_cases h1 : fd < 0 ∨ fd > (s.crud_file_table.length : Int) - 1
  · rw [if_pos h1]
    exact ⟨ht, hs⟩
  · rw [if_neg h1]
    simp only []
    by_cases h2 : (s.crud_file_table.getD fd.toNat default).isOpen = false
    · rw [if_pos h2]
      exact ⟨ht, hs⟩
    · rw [if_neg h2]
      by_cases h3 : loc > (s.crud_file_table.getD fd.toNat default).length
      · rw [if_pos h3]
        exact ⟨ht, hs⟩
      · rw [if_neg h3]
        refine ⟨?_, hs⟩
        refine tableWF_updateEntry s.store s.store _ _ _ ht (fun e he => he) ?_
        have hfdn : fd.toNat < s.crud_file_table.length := by omega
        obtain ⟨p1, p2, p3, p4⟩ := ht fd.toNat hfdn
        exact ⟨show loc ≤ (s.crud_file_table.getD fd.toNat default).length from by omega,
          p2, p3, p4⟩

theorem crud_read_WF (s : FSState) (fd : Int) (b : Option (List Nat)) (count : Int)
    (h : stateWF s) (hok : rdOK s fd b count = true) :
    stateWF (crud_read s fd b count).1 := by
  obtain ⟨ht, hs⟩ := h
  by_cases h1 : fd < 0 ∨ fd > (s.crud_file_table.length : Int) - 1
  · rw [crud_read_validation s fd b count (Or.inl h1)]
    exact ⟨ht, hs⟩
  · cases b with
    | none =>
      rw [crud_read_validation s fd none count (Or.inr (Or.inr rfl))]
      exact ⟨ht, hs⟩
    | some bb =>
      by_cases h2 : (s.crud_file_table.getD fd.toNat default).isOpen = false
      · rw [crud_read_validation s fd (some bb) count (Or.inr (Or.inl h2))]
        exact ⟨ht, hs⟩
      · have hfdn : fd.toNat < s.crud_file_table.length := by omega
        obtain ⟨p1, p2, p3, p4⟩ := ht fd.toNat hfdn
        have hopen : (s.crud_file_table.getD fd.toNat default).isOpen = true := by
          cases hx : (s.crud_file_table.getD fd.toNat default).isOpen
          · exact absurd hx h2
          · rfl
        by_cases h3 : (s.crud_file_table.getD fd.toNat default).length = 0 ∨ count < 1
        · rw [crud_read_zero s fd _ bb count (by omega) (by omega) rfl hopen h3]
          exact ⟨ht, hs⟩
        · push_neg at h3
          obtain ⟨h3a, h3b⟩ := h3
          have hlook : ∃ c, storeLookup s.store.objects
              (s.crud_file_table.getD fd.toNat default).object_id = some c := by
            cases hc : storeLookup s.store.objects
                (s.crud_file_table.getD fd.toNat default).object_id with
            | some c => exact ⟨c, rfl⟩
            | none =>
              exfalso
              rw [List.getD_eq_getElem?_getD] at h2 h3a hc
              simp [rdOK, h1, h2, h3a, hc, show ¬count < 1 from by omega] at hok
          obtain ⟨c, hc⟩ := hlook
          have hclen24 : c.length < 2 ^ 24 := hs.2.2.1 _ _ hc
          have hceq : c.length = (s.crud_file_table.getD fd.toNat default).length := p4 c hc
          rw [crud_read_spec s fd _ bb c count (by omega) (by omega) rfl hopen h3a
            (by omega) hs.2.2.2 p2 hclen24 hc]
          refine ⟨?_, ?_⟩
          · rw [updateEntry_updateEntry]
            refine tableWF_updateEntry s.store _ _ _ _ ht
              (fun e he => entryWF_mono s.store _ e rfl (Nat.le_refl _) he) ?_
            refine ⟨?_, p2, p3, ?_⟩
            · show (s.crud_file_table.getD fd.toNat default).position +
                min count.toNat (c.length - (s.crud_file_table.getD fd.toNat default).position) ≤
                c.length
              omega
            · intro cc hcc
              have hcc' : storeLookup s.store.objects
                  (s.crud_file_table.getD fd.toNat default).object_id = some cc := hcc
              rw [hc] at hcc'
              injection hcc' with hcc2
              subst hcc2
              rfl
          · exact ⟨hs.1, hs.2.1, hs.2.2.1, rfl⟩

theorem crud_write_zero (s : FSState) (fd : Int) (bb : List Nat) (count : Int)
    (h1 : ¬(fd < 0 ∨ fd > (s.crud_file_table.length : Int) - 1))
    (h2 : ¬(s.crud_file_table.getD fd.toNat default).isOpen = false)
    (h3 : count < 1) :
    crud_write s fd (some bb) count = (s, 0) := by
  unfold crud_write
  rw [if_neg h1, if_neg h2]
  simp only [if_pos h3]

theorem wrOK_eq (s : FSState) (fd : Int) (bb : List Nat) (count : Int)
    (h1 : ¬(fd < 0 ∨ fd > (s.crud_file_table.length : Int) - 1))
    (h2 : ¬(s.crud_file_table.getD fd.toNat default).isOpen = false)
    (h3 : ¬count < 1) :
    wrOK s fd (some bb) count =
      (decide (count.toNat + (s.crud_file_table.getD fd.toNat default).position < 2 ^ 24) &&
       decide (count.toNat ≤ bb.length) &&
       (if (s.crud_file_table.getD fd.toNat default).object_id = CRUD_NO_OBJECT then
          decide (s.store.nextOID < 2 ^ 32) &&
            decide (storeLookup s.store.objects s.store.nextOID = none)
        else
          match storeLookup s.store.objects
              (s.crud_file_table.getD fd.toNat default).object_id with
          | none => false
          | some _ =>
            if (s.crud_file_table.getD fd.toNat default).length ≥
                count.toNat + (s.crud_file_table.getD fd.toNat default).position then true
            else
              decide (s.store.nextOID < 2 ^ 32) &&
                decide (storeLookup (storeErase s.store.objects
                  (s.crud_file_table.getD fd.toNat default).object_id)
                  s.store.nextOID = none))) := by
  simp only [wrOK, if_neg h1, if_neg h2, if_neg h3]

theorem crud_write_WF (s : FSState) (fd : Int) (b : Option (List Nat)) (count : Int)
    (h : stateWF s) (hok : wrOK s fd b count = true) :
    stateWF (crud_write s fd b count).1 := by
  obtain ⟨ht, hs⟩ := h
  by_cases h1 : fd < 0 ∨ fd > (s.crud_file_table.length : Int) - 1
  · rw [crud_write_validation s fd b count (Or.inl h1)]
    exact ⟨ht, hs⟩
  · cases b with
    | none =>
      rw [crud_write_validation s fd none count (Or.inr (Or.inr rfl))]
      exact ⟨ht, hs⟩
    | some bb =>
      by_cases h2 : (s.crud_file_table.getD fd.toNat default).isOpen = false
      · rw [crud_write_validation s fd (some bb) count (Or.inr (Or.inl h2))]
        exact ⟨ht, hs⟩
      · have hfdn : fd.toNat < s.crud_file_table.length := by omega
        obtain ⟨p1, p2, p3, p4⟩ := ht fd.toNat hfdn
        have hopen : (s.crud_file_table.getD fd.toNat default).isOpen = true := by
          cases hx : (s.crud_file_table.getD fd.toNat default).isOpen
          · exact absurd hx h2
          · rfl
        by_cases h3 : count < 1
        · rw [crud_write_zero s fd bb count h1 h2 h3]
          exact ⟨ht, hs⟩
        · rw [wrOK_eq s fd bb count h1 h2 h3] at hok
          simp only [Bool.and_eq_true, decide_eq_true_eq] at hok
          obtain ⟨⟨hb24, hble⟩, hrest⟩ := hok
          by_cases h4 : (s.crud_file_table.getD fd.toNat default).object_id = CRUD_NO_OBJECT
          · rw [if_pos h4] at hrest
            simp only [Bool.and_eq_true, decide_eq_true_eq] at hrest
            obtain ⟨hnext, hlookN⟩ := hrest
            rw [crud_write_create_spec s fd _ bb count (by omega) (by omega) rfl hopen h4
              (by omega) (by omega) hs.2.2.2 hnext hlookN]
            refine ⟨?_, ?_⟩
            · rw [updateEntry_updateEntry]
              refine tableWF_updateEntry s.store _ _ _ _ ht ?_ ?_
              · intro e he
                obtain ⟨q1, q2, q3, q4⟩ := he
                refine ⟨q1, q2, show e.object_id < s.store.nextOID + 1 from by omega, ?_⟩
                intro cc hcc
                have hne : ¬s.store.nextOID = e.object_id := by omega
                have hcc' : (if s.store.nextOID = e.object_id then some (bb.take count.toNat)
                    else storeLookup s.store.objects e.object_id) = some cc := hcc
                rw [if_neg hne] at hcc'
                exact q4 cc hcc'
              · refine ⟨Nat.le_refl _, hnext,
                  show s.store.nextOID < s.store.nextOID + 1 from by omega, ?_⟩
                intro cc hcc
                have hcc' : (if s.store.nextOID = s.store.nextOID then some (bb.take count.toNat)
                    else storeLookup s.store.objects s.store.nextOID) = some cc := hcc
                rw [if_pos rfl] at hcc'
                injection hcc' with hcc2
                subst hcc2
                show (bb.take count.toNat).length = count.toNat
                simp only [List.length_take]
                omega
            · refine ⟨show 1 ≤ s.store.nextOID + 1 from by omega, ?_, ?_, rfl⟩
              · have hne : ¬s.store.nextOID = CRUD_NO_OBJECT := by
                  show ¬s.store.nextOID = 0
                  have := hs.1
                  omega
                show (if s.store.nextOID = CRUD_NO_OBJECT then some (bb.take count.toNat)
                  else storeLookup s.store.objects CRUD_NO_OBJECT) = none
                rw [if_neg hne]
                exact hs.2.1
              · intro k cc hkc
                have hkc' : (if s.store.nextOID = k then some (bb.take count.toNat)
                    else storeLookup s.store.objects k) = some cc := hkc
                by_cases hkn : s.store.nextOID = k
                · rw [if_pos hkn] at hkc'
                  injection hkc' with hkc2
                  subst hkc2
                  show (bb.take count.toNat).length < 2 ^ 24
                  simp only [List.length_take]
                  omega
                · rw [if_neg hkn] at hkc'
                  exact hs.2.2.1 _ _ hkc'
          · rw [if_neg h4] at hrest
            cases hclookup : storeLookup s.store.objects
                (s.crud_file_table.getD fd.toNat default).object_id with
            | none =>
              rw [hclookup] at hrest
              exact absurd hrest (by simp)
            | some c =>
              rw [hclookup] at hrest
              have hclen24 : c.length < 2 ^ 24 := hs.2.2.1 _ _ hclookup
              have hceq : c.length = (s.crud_file_table.getD fd.toNat default).length :=
                p4 c hclookup
              by_cases h5 : (s.crud_file_table.getD fd.toNat default).length ≥
                  count.toNat + (s.crud_file_table.getD fd.toNat default).position
              · rw [crud_write_update_spec s fd _ bb c count (by omega) (by omega) rfl hopen
                  h4 h5 (by omega) hs.2.2.2 p2 hclookup hclen24]
                have hlen1 : ((memcpyAt c (s.crud_file_table.getD fd.toNat default).position
                    (bb.take count.toNat)).take c.length).length = c.length := by
                  rw [List.length_take, memcpyAt_length]
                  · exact Nat.min_self _
                  · rw [List.length_take]
                    omega
                refine ⟨?_, ?_⟩
                · rw [updateEntry_updateEntry, updateEntry_updateEntry]
                  refine tableWF_updateEntry s.store _ _ _ _ ht ?_ ?_
                  · intro e he
                    obtain ⟨q1, q2, q3, q4⟩ := he
                    refine ⟨q1, q2, q3, ?_⟩
                    intro cc hcc
                    by_cases hek : e.object_id =
                        (s.crud_file_table.getD fd.toNat default).object_id
                    · have hself := storeLookup_storeReplace_self s.store.objects
                        (s.crud_file_table.getD fd.toNat default).object_id c
                        ((memcpyAt c (s.crud_file_table.getD fd.toNat default).position
                          (bb.take count.toNat)).take c.length) hclookup
                      rw [hek] at hcc
                      rw [hself] at hcc
                      injection hcc with hcc2
                      subst hcc2
                      have hq : c.length = e.length := q4 c (by rw [hek]; exact hclookup)
                      rw [hlen1, hq]
                    · rw [storeLookup_storeReplace_ne _ _ _ _ hek] at hcc
                      exact q4 cc hcc
                  · refine ⟨?_, p2, p3, ?_⟩
                    · show (s.crud_file_table.getD fd.toNat default).position + count.toNat ≤
                        c.length
                      omega
                    · intro cc hcc
                      have hself := storeLookup_storeReplace_self s.store.objects
                        (s.crud_file_table.getD fd.toNat default).object_id c
                        ((memcpyAt c (s.crud_file_table.getD fd.toNat default).position
                          (bb.take count.toNat)).take c.length) hclookup
                      have hcc' : storeLookup (storeReplace s.store.objects
                          (s.crud_file_table.getD fd.toNat default).object_id
                          ((memcpyAt c (s.crud_file_table.getD fd.toNat default).position
                            (bb.take count.toNat)).take c.length))
                          (s.crud_file_table.getD fd.toNat default).object_id = some cc := hcc
                      rw [hself] at hcc'
                      injection hcc' with hcc2
                      subst hcc2
                      exact hlen1
                · refine ⟨hs.1, ?_, ?_, rfl⟩
                  · have hne : ¬(CRUD_NO_OBJECT =
                        (s.crud_file_table.getD fd.toNat default).object_id) :=
                      fun hh => h4 hh.symm
                    rw [storeLookup_storeReplace_ne _ _ _ _ hne]
                    exact hs.2.1
                  · intro k cc hkc
                    by_cases hkn : k = (s.crud_file_table.getD fd.toNat default).object_id
                    · rw [hkn] at hkc
                      have hself := storeLookup_storeReplace_self s.store.objects
                        (s.crud_file_table.getD fd.toNat default).object_id c
                        ((memcpyAt c (s.crud_file_table.getD fd.toNat default).position
                          (bb.take count.toNat)).take c.length) hclookup
                      rw [hself] at hkc
                      injection hkc with hkc2
                      subst hkc2
                      rw [hlen1]
                      exact hclen24
                    · rw [storeLookup_storeReplace_ne _ _ _ _ hkn] at hkc
                      exact hs.2.2.1 _ _ hkc
              · rw [if_neg h5] at hrest
                simp only [Bool.and_eq_true, decide_eq_true_eq] at hrest
                obtain ⟨hnext, hlookN⟩ := hrest
                rw [crud_write_grow_gen_spec s fd _ bb c count (by omega) (by omega) rfl hopen
                  h4 h5 (by omega) hb24 hs.2.2.2 p2 hclookup hclen24 hnext hlookN]
                have hinlen : (memcpyAt (List.replicate
                    (count.toNat + (s.crud_file_table.getD fd.toNat default).position) 0) 0
                    c).length =
                    count.toNat + (s.crud_file_table.getD fd.toNat default).position := by
                  rw [memcpyAt_length]
                  · exact List.length_replicate _ _
                  · rw [List.length_replicate]
                    omega
                have houtlen : (memcpyAt (memcpyAt (List.replicate
                    (count.toNat + (s.crud_file_table.getD fd.toNat default).position) 0) 0 c)
                    (s.crud_file_table.getD fd.toNat default).position
                    (bb.take count.toNat)).length =
                    count.toNat + (s.crud_file_table.getD fd.toNat default).position := by
                  rw [memcpyAt_length]
                  · exact hinlen
                  · rw [hinlen, List.length_take]
                    omega
                have hctop : ((memcpyAt (memcpyAt (List.replicate
                    (count.toNat + (s.crud_file_table.getD fd.toNat default).position) 0) 0 c)
                    (s.crud_file_table.getD fd.toNat default).position
                    (bb.take count.toNat)).take
                    (count.toNat + (s.crud_file_table.getD fd.toNat default).position)).length =
                    count.toNat + (s.crud_file_table.getD fd.toNat default).position := by
                  rw [List.length_take, houtlen]
                  exact Nat.min_self _
                refine ⟨?_, ?_⟩
                · rw [updateEntry_updateEntry, updateEntry_updateEntry, updateEntry_updateEntry]
                  refine tableWF_updateEntry s.store _ _ _ _ ht ?_ ?_
                  · intro e he
                    obtain ⟨q1, q2, q3, q4⟩ := he
                    refine ⟨q1, q2, show e.object_id < s.store.nextOID + 1 from by omega, ?_⟩
                    intro cc hcc
                    have hne : ¬s.store.nextOID = e.object_id := by omega
                    have hcc' : (if s.store.nextOID = e.object_id
                        then some ((memcpyAt (memcpyAt (List.replicate
                          (count.toNat + (s.crud_file_table.getD fd.toNat default).position) 0)
                          0 c) (s.crud_file_table.getD fd.toNat default).position
                          (bb.take count.toNat)).take
                          (count.toNat + (s.crud_file_table.getD fd.toNat default).position))
                        else storeLookup (storeErase s.store.objects
                          (s.crud_file_table.getD fd.toNat default).object_id)
                          e.object_id) = some cc := hcc
                    rw [if_neg hne] at hcc'
                    by_cases hek : e.object_id =
                        (s.crud_file_table.getD fd.toNat default).object_id
                    · rw [hek, storeLookup_storeErase_self] at hcc'
                      exact absurd hcc' (by simp)
                    · rw [storeLookup_storeErase_ne _ _ _ hek] at hcc'
                      exact q4 cc hcc'
                  · refine ⟨?_, hnext,
                      show s.store.nextOID < s.store.nextOID + 1 from by omega, ?_⟩
                    · show (s.crud_file_table.getD fd.toNat default).position + count.toNat ≤
                        count.toNat + (s.crud_file_table.getD fd.toNat default).position
                      omega
                    · intro cc hcc
                      have hcc' : (if s.store.nextOID = s.store.nextOID
                          then some ((memcpyAt (memcpyAt (List.replicate
                            (count.toNat + (s.crud_file_table.getD fd.toNat default).position) 0)
                            0 c) (s.crud_file_table.getD fd.toNat default).position
                            (bb.take count.toNat)).take
                            (count.toNat + (s.crud_file_table.getD fd.toNat default).position))
                          else storeLookup (storeErase s.store.objects
                            (s.crud_file_table.getD fd.toNat default).object_id)
                            s.store.nextOID) = some cc := hcc
                      rw [if_pos rfl] at hcc'
                      injection hcc' with hcc2
                      subst hcc2
                      exact hctop
                · refine ⟨show 1 ≤ s.store.nextOID + 1 from by omega, ?_, ?_, rfl⟩
                  · have hne : ¬s.store.nextOID = CRUD_NO_OBJECT := by
                      show ¬s.store.nextOID = 0
                      have := hs.1
                      omega
                    show (if s.store.nextOID = CRUD_NO_OBJECT
                        then some ((memcpyAt (memcpyAt (List.replicate
                          (count.toNat + (s.crud_file_table.getD fd.toNat default).position) 0)
                          0 c) (s.crud_file_table.getD fd.toNat default).position
                          (bb.take count.toNat)).take
                          (count.toNat + (s.crud_file_table.getD fd.toNat default).position))
                        else storeLookup (storeErase s.store.objects
                          (s.crud_file_table.getD fd.toNat default).object_id)
                          CRUD_NO_OBJECT) = none
                    rw [if_neg hne]
                    have hne0 : ¬(CRUD_NO_OBJECT =
                        (s.crud_file_table.getD fd.toNat default).object_id) :=
                      fun hh => h4 hh.symm
                    rw [storeLookup_storeErase_ne _ _ _ hne0]
                    exact hs.2.1
                  · intro k cc hkc
                    have hkc' : (if s.store.nextOID = k
                        then some ((memcpyAt (memcpyAt (List.replicate
                          (count.toNat + (s.crud_file_table.getD fd.toNat default).position) 0)
                          0 c) (s.crud_file_table.getD fd.toNat default).position
                          (bb.take count.toNat)).take
                          (count.toNat + (s.crud_file_table.getD fd.toNat default).position))
                        else storeLookup (storeErase s.store.objects
                          (s.crud_file_table.getD fd.toNat default).object_id)
                          k) = some cc := hkc
                    by_cases hkn : s.store.nextOID = k
                    · rw [if_pos hkn] at hkc'
                      injection hkc' with hkc2
                      subst hkc2
                      rw [hctop]
                      omega
                    · rw [if_neg hkn] at hkc'
                      by_cases hke : k = (s.crud_file_table.getD fd.toNat default).object_id
                      · rw [hke, storeLookup_storeErase_self] at hkc'
                        exact absurd hkc' (by simp)
                      · rw [storeLookup_storeErase_ne _ _ _ hke] at hkc'
                        exact hs.2.2.1 _ _ hkc'

theorem runOp_WF (s : FSState) (o : FileOp) (h : stateWF s) (hok : opOK s o = true) :
    stateWF (runOp s o) := by
  cases o with
  | opn p => exact crud_open_WF s p h
  | cls fd => exact crud_close_WF s fd h
  | rd fd b c => exact crud_read_WF s fd b c h hok
  | wr fd b c => exact crud_write_WF s fd b c h hok
  | sk fd l => exact crud_seek_WF s fd l h

theorem opsOK_runOps_WF (ops : List FileOp) : ∀ s : FSState, stateWF s →
    opsOK s ops = true → stateWF (runOps s ops) := by
  induction ops with
  | nil => intro s h _; exact h
  | cons o rest ih =>
    intro s h hok
    simp only [opsOK, Bool.and_eq_true] at hok
    exact ih (runOp s o) (runOp_WF s o h hok.1) hok.2

theorem stateWF_initState (n : Nat) : stateWF (initState n) := by
  refine ⟨?_, Nat.le_refl 1, rfl, fun k c hc => absurd hc (by simp [storeLookup]), rfl⟩
  intro i hi
  have hrep : (List.replicate n emptyEntry).getD i default = emptyEntry := by
    rw [List.getD_eq_getElem?_getD, List.getElem?_replicate]
    simp only [initState, List.length_replicate] at hi
    simp [hi]
  show entryWF (initState n).store ((List.replicate n emptyEntry).getD i default)
  rw [hrep]
  refine ⟨Nat.le_refl 0, show CRUD_NO_OBJECT < 2 ^ 32 from by decide, Nat.le_refl 1, ?_⟩
  intro c hc
  exact absurd hc (by simp [storeLookup, initState, initStore])

/-- C2 (amended): the cursor invariant `position <= length` holds for every
valid fd after every call, for any sequence of open/close/read/write/seek
calls from the process-start state, PROVIDED every call meets `opOK`: each
exchange the call performs is answered successfully by the store (the original
claim's "assuming successful store responses" — here the store-side success
conditions), and every write obeys the C contract (`count` readable buffer
bytes) and the 24-bit wire length field bound `count + position < 2^24`
(spec section 4.1 makes wider lengths caller error, and `crud_write` never
checks this; without the bound the invariant is false, see the
counterexample). -/
theorem C2_cursor_invariant (n : Nat) (ops : List FileOp)
    (hok : opsOK (initState n) ops = true) :
    ∀ fd : Nat, fd < (runOps (initState n) ops).crud_file_table.length →
      ((runOps (initState n) ops).crud_file_table.getD fd default).position ≤
      ((runOps (initState n) ops).crud_file_table.getD fd default).length := by
  have h := opsOK_runOps_WF ops (initState n) (stateWF_initState n) hok
  intro fd hfd
  exact (h.1 fd hfd).1

/-- Witness for C2's amended theorem: a run that opens a file, writes two
bytes, seeks to 1 and reads; every call meets `opOK` and the invariant holds
at the only fd. -/
theorem C2_cursor_invariant_witness :
    opsOK (initState 1) [FileOp.opn ['a'], FileOp.wr 0 (some [7, 8]) 2, FileOp.sk 0 1,
      FileOp.rd 0 (some [0, 0]) 2] = true ∧
    0 < (runOps (initState 1) [FileOp.opn ['a'], FileOp.wr 0 (some [7, 8]) 2, FileOp.sk 0 1,
      FileOp.rd 0 (some [0, 0]) 2]).crud_file_table.length ∧
    ((runOps (initState 1) [FileOp.opn ['a'], FileOp.wr 0 (some [7, 8]) 2, FileOp.sk 0 1,
      FileOp.rd 0 (some [0, 0]) 2]).crud_file_table.getD 0 default).position ≤
    ((runOps (initState 1) [FileOp.opn ['a'], FileOp.wr 0 (some [7, 8]) 2, FileOp.sk 0 1,
      FileOp.rd 0 (some [0, 0]) 2]).crud_file_table.getD 0 default).length :=
  ⟨by decide, by decide,
    C2_cursor_invariant 1 [FileOp.opn ['a'], FileOp.wr 0 (some [7, 8]) 2, FileOp.sk 0 1,
      FileOp.rd 0 (some [0, 0]) 2] (by decide) 0 (by decide)⟩

/-- The CREATE exchange of the truncating write in the run counterexample
(store state as left by the INIT exchange of the preceding open): the
requested length 2^25 reads as 0 in the 24-bit length field, so the store
creates an empty object and reports success, whatever payload is sent. -/
theorem create_trunc_exch_run (p : List Nat) : storeExchange ⟨[], 1, 1, 1, 0, []⟩
    (create_crud_request 0 CRUD_CREATE 33554432 0 0) p =
    (⟨[(1, [])], 2, 1, 2, 0, []⟩, create_crud_request 1 CRUD_CREATE 0 0 0, []) := by
  have h4 : extract_crud_response (create_crud_request 0 2 33554432 0 0) =
      ⟨0, 2, 0, 0, 0⟩ := by decide
  simp [storeExchange, h4, storeLookup, CRUD_INIT, CRUD_FORMAT, CRUD_CREATE,
    CRUD_PRIORITY_OBJECT]

/-- Writing `count = 2^25` bytes to the file just opened from the process-start
state: the CREATE succeeds with a truncated length field of 0, the call returns
`count`, and the entry ends with position 2^25 but length 0. -/
theorem crud_write_create_trunc_run_eq (p : List Nat) :
    crud_write ⟨[⟨['a'], 0, 0, 0, true⟩], true, ⟨[], 1, 1, 1, 0, []⟩⟩ 0
      (some p) 33554432 =
    (⟨[⟨['a'], 1, 33554432, 0, true⟩], true, ⟨[(1, [])], 2, 1, 2, 0, []⟩⟩, 33554432) := by
  have h5x : extract_crud_response (create_crud_request 1 CRUD_CREATE 0 0 0) =
      ⟨1, 2, 0, 0, 0⟩ := by decide
  unfold crud_write
  rw [if_neg (by decide)]
  simp only [Int.toNat_ofNat, Int.toNat_zero, List.getD_cons_zero]
  rw [if_neg (by decide)]
  rw [if_neg (by decide)]
  rw [if_pos (by decide)]
  rw [show Int.toNat 33554432 = 33554432 from by decide]
  rw [create_trunc_exch_run]
  simp only [h5x, updateEntry, List.getD_cons_zero]
  rw [if_neg (by decide)]

/-- C2 counterexample: from the process-start state, open "a" and then write
`count = 2^25` bytes.  The write never validates `count` against the 24-bit
wire length field: the CREATE request's length field reads 2^25 mod 2^24 = 0,
the store creates an empty object and every exchange of the run succeeds
(failCount 0), the write returns `count`, yet the entry at fd 0 ends with
position 2^25 and length 0 — `position <= length` is violated after a
successful write. -/
theorem C2_counterexample :
    (crud_write (runOp (initState 1) (FileOp.opn ['a'])) 0
      (some (List.replicate 33554432 5)) 33554432).2 = 33554432 ∧
    (runOps (initState 1) [FileOp.opn ['a'],
      FileOp.wr 0 (some (List.replicate 33554432 5)) 33554432]).store.failCount = 0 ∧
    ¬(((runOps (initState 1) [FileOp.opn ['a'],
        FileOp.wr 0 (some (List.replicate 33554432 5)) 33554432]).crud_file_table.getD 0
        default).position ≤
      ((runOps (initState 1) [FileOp.opn ['a'],
        FileOp.wr 0 (some (List.replicate 33554432 5)) 33554432]).crud_file_table.getD 0
        default).length) := by
  have ho : runOp (initState 1) (FileOp.opn ['a']) =
      ⟨[⟨['a'], 0, 0, 0, true⟩], true, ⟨[], 1, 1, 1, 0, []⟩⟩ := by decide
  refine ⟨?_, ?_, ?_⟩
  · rw [ho, crud_write_create_trunc_run_eq]
  · simp only [runOps, List.foldl_cons, List.foldl_nil]
    rw [ho]
    simp only [runOp]
    rw [crud_write_create_trunc_run_eq]
  · simp only [runOps, List.foldl_cons, List.foldl_nil]
    rw [ho]
    simp only [runOp]
    rw [crud_write_create_trunc_run_eq]
    decide
